import Mathlib

/-! # Image registry configuration (`imageregistry/v1/types.go`)

A shallow embedding of the configuration types of the image registry operator
API, of the JSON shape fixed by their struct tags, and of the `kubebuilder`
validation markers they carry, followed by the properties of the written
specification that can be stated over them.

`types.go` declares types only.  Three kinds of definitions appear below:

* the data model and the constants, transcribed field by field from `types.go`;
* the JSON encoding and the validation markers, which `types.go` fixes through
  struct tags (`json:"s3,omitempty"`) and marker comments
  (`+kubebuilder:validation:Pattern=...`);
* the validator and the storage normaliser described in the specification,
  for which the repository has no code: every such definition has a doc
  comment starting with `Modelled from the spec:`.
-/

namespace ImageregistryV1

/-! ## Constants -/

/-- The constant `StorageManagementStateManaged` of `types.go`. -/
def StorageManagementStateManaged : String := "Managed"

/-- The constant `StorageManagementStateUnmanaged` of `types.go`. -/
def StorageManagementStateUnmanaged : String := "Unmanaged"

/-! ## Imported types -/

/-- Types that `types.go` imports from `k8s.io/api/core/v1`,
`k8s.io/apimachinery/pkg/apis/meta/v1` and `github.com/openshift/api/operator/v1`.
Their declarations are not part of this package, so they are parameters of the
model. -/
structure External where
  /-- Stands for `metav1.TypeMeta`. -/
  TypeMeta : Type
  /-- Stands for `metav1.ObjectMeta`. -/
  ObjectMeta : Type
  /-- Stands for `metav1.ListMeta`. -/
  ListMeta : Type
  /-- Stands for `operatorv1.OperatorSpec`. -/
  OperatorSpec : Type
  /-- Stands for `operatorv1.OperatorStatus`. -/
  OperatorStatus : Type
  /-- Stands for `corev1.SecretKeySelector`. -/
  SecretKeySelector : Type
  /-- Stands for `metav1.Duration`. -/
  Duration : Type
  /-- Stands for `corev1.ResourceRequirements`. -/
  ResourceRequirements : Type
  /-- Stands for `corev1.Toleration`. -/
  Toleration : Type
  /-- Stands for `corev1.Affinity`. -/
  Affinity : Type

/-! ## Data model

Go pointers are `Option`, Go slices are `List`, the Go integer types are `Int`.
Go strings are `String`: the text of a Go string that holds valid UTF-8 (the
section on Go strings says what becomes of the others).  A field default is
the Go zero value, so `{}` is the zero value of a struct whose fields all have
one. -/

/-- The struct `ImageRegistryConfigProxy`. -/
structure ImageRegistryConfigProxy where
  HTTP : String := ""
  HTTPS : String := ""
  NoProxy : String := ""
  deriving DecidableEq

/-- The struct `ImageRegistryConfigStorageS3CloudFront`. -/
structure ImageRegistryConfigStorageS3CloudFront (X : External) where
  BaseURL : String
  PrivateKey : X.SecretKeySelector
  KeypairID : String
  Duration : X.Duration

/-- The struct `ImageRegistryConfigStorageEmptyDir`: it has no field. -/
structure ImageRegistryConfigStorageEmptyDir where
  deriving DecidableEq

/-- The struct `ImageRegistryConfigStorageS3`. -/
structure ImageRegistryConfigStorageS3 (X : External) where
  Bucket : String := ""
  Region : String := ""
  RegionEndpoint : String := ""
  Encrypt : Bool := false
  KeyID : String := ""
  CloudFront : Option (ImageRegistryConfigStorageS3CloudFront X) := none
  VirtualHostedStyle : Bool := false

/-- The struct `ImageRegistryConfigStorageGCS`. -/
structure ImageRegistryConfigStorageGCS where
  Bucket : String := ""
  Region : String := ""
  ProjectID : String := ""
  KeyID : String := ""
  deriving DecidableEq

/-- The struct `ImageRegistryConfigStorageSwift`. -/
structure ImageRegistryConfigStorageSwift where
  AuthURL : String := ""
  AuthVersion : String := ""
  Container : String := ""
  Domain : String := ""
  DomainID : String := ""
  Tenant : String := ""
  TenantID : String := ""
  RegionName : String := ""
  deriving DecidableEq

/-- The struct `ImageRegistryConfigStoragePVC`. -/
structure ImageRegistryConfigStoragePVC where
  Claim : String := ""
  deriving DecidableEq

/-- The struct `ImageRegistryConfigStorageAzure`. -/
structure ImageRegistryConfigStorageAzure where
  AccountName : String := ""
  Container : String := ""
  CloudName : String := ""
  deriving DecidableEq

/-- The struct `ImageRegistryConfigStorageIBMCOS`. -/
structure ImageRegistryConfigStorageIBMCOS where
  Bucket : String := ""
  Location : String := ""
  ResourceGroupName : String := ""
  ResourceKeyCRN : String := ""
  ServiceInstanceCRN : String := ""
  deriving DecidableEq

/-- The struct `ImageRegistryConfigStorage`: seven optional backends, each a
pointer of its own, and the storage management state. -/
structure ImageRegistryConfigStorage (X : External) where
  EmptyDir : Option ImageRegistryConfigStorageEmptyDir := none
  S3 : Option (ImageRegistryConfigStorageS3 X) := none
  GCS : Option ImageRegistryConfigStorageGCS := none
  Swift : Option ImageRegistryConfigStorageSwift := none
  PVC : Option ImageRegistryConfigStoragePVC := none
  Azure : Option ImageRegistryConfigStorageAzure := none
  IBMCOS : Option ImageRegistryConfigStorageIBMCOS := none
  ManagementState : String := ""

/-- The struct `ImageRegistryConfigRequestsLimits`. -/
structure ImageRegistryConfigRequestsLimits (X : External) where
  MaxRunning : Int
  MaxInQueue : Int
  MaxWaitInQueue : X.Duration

/-- The struct `ImageRegistryConfigRequests`. -/
structure ImageRegistryConfigRequests (X : External) where
  Read : ImageRegistryConfigRequestsLimits X
  Write : ImageRegistryConfigRequestsLimits X

/-- The struct `ImageRegistryConfigRoute`. -/
structure ImageRegistryConfigRoute where
  Name : String
  Hostname : String := ""
  SecretName : String := ""
  deriving DecidableEq

/-- The struct `ImageRegistrySpec`.  `ManagementState` has the Go type
`operatorv1.ManagementState`, a string type; `NodeSelector` is a Go map, kept
as its list of bindings. -/
structure ImageRegistrySpec (X : External) where
  OperatorSpec : X.OperatorSpec
  ManagementState : String
  HTTPSecret : String := ""
  Proxy : ImageRegistryConfigProxy := {}
  Storage : ImageRegistryConfigStorage X := {}
  ReadOnly : Bool := false
  DisableRedirect : Bool := false
  Requests : ImageRegistryConfigRequests X
  DefaultRoute : Bool := false
  Routes : List ImageRegistryConfigRoute := []
  Replicas : Int
  Logging : Int := 0
  Resources : Option X.ResourceRequirements := none
  NodeSelector : List (String × String) := []
  Tolerations : List X.Toleration := []
  RolloutStrategy : String := ""
  Affinity : Option X.Affinity := none

/-- The struct `ImageRegistryStatus`. -/
structure ImageRegistryStatus (X : External) where
  OperatorStatus : X.OperatorStatus
  StorageManaged : Bool := false
  Storage : ImageRegistryConfigStorage X := {}

/-- The struct `Config`. -/
structure Config (X : External) where
  TypeMeta : X.TypeMeta
  ObjectMeta : X.ObjectMeta
  Spec : ImageRegistrySpec X
  Status : ImageRegistryStatus X

/-- The struct `ConfigList`. -/
structure ConfigList (X : External) where
  TypeMeta : X.TypeMeta
  ListMeta : X.ListMeta
  Items : List (Config X)

/-- The backend fields of a storage value that are non-nil, by JSON key, in
the order in which `ImageRegistryConfigStorage` declares them. -/
def populatedFields {X : External} (s : ImageRegistryConfigStorage X) : List String :=
  (if s.EmptyDir.isSome then ["emptyDir"] else []) ++
  (if s.S3.isSome then ["s3"] else []) ++
  (if s.GCS.isSome then ["gcs"] else []) ++
  (if s.Swift.isSome then ["swift"] else []) ++
  (if s.PVC.isSome then ["pvc"] else []) ++
  (if s.Azure.isSome then ["azure"] else []) ++
  (if s.IBMCOS.isSome then ["ibmcos"] else [])

/-- A small instance of the imported types for concrete examples: the secret
key selector is kept as the name of its key and the duration as a number of
nanoseconds; the remaining imported types carry no information. -/
def sampleExternal : External where
  TypeMeta := Unit
  ObjectMeta := Unit
  ListMeta := Unit
  OperatorSpec := Unit
  OperatorStatus := Unit
  SecretKeySelector := String
  Duration := Int
  ResourceRequirements := Unit
  Toleration := Unit
  Affinity := Unit

/-! ## Go strings and JSON text

A Go string is a sequence of bytes.  A `String` field of the data model stands
for the Go string whose bytes are the UTF-8 encoding of its text (`goBytes`);
a Go string that is not valid UTF-8 has no counterpart among the values of the
model.  `encoding/json` writes a Go string by decoding it rune by rune and
replacing every byte that does not start a valid encoding by U+FFFD
(`marshalString`), and it reads a JSON string into the Go string holding the
UTF-8 bytes of its text. -/

/-- The UTF-8 encoding of the code point `n`, byte values as numbers. -/
def utf8Nat (n : Nat) : List Nat :=
  if n < 0x80 then [n]
  else if n < 0x800 then [0xC0 + n / 64, 0x80 + n % 64]
  else if n < 0x10000 then [0xE0 + n / 4096, 0x80 + n / 64 % 64, 0x80 + n % 64]
  else [0xF0 + n / 262144, 0x80 + n / 4096 % 64, 0x80 + n / 64 % 64, 0x80 + n % 64]

/-- The UTF-8 bytes of a character. -/
def utf8Bytes (c : Char) : List UInt8 := (utf8Nat c.toNat).map UInt8.ofNat

/-- The bytes of the Go string that holds the text `t`. -/
def goBytes (t : String) : List UInt8 := t.toList.flatMap utf8Bytes

/-- A UTF-8 continuation byte, `0x80` to `0xBF`. -/
def isCont (b : Nat) : Bool := decide (0x80 ≤ b) && decide (b ≤ 0xBF)

/-- Go's `utf8.DecodeRune` on a non-empty byte sequence: the code point at the
front and its width, or U+FFFD with width 1 when the front is not a valid
encoding (a stray continuation byte, an overlong form, a surrogate, a value
above U+10FFFF, or a sequence cut short). -/
def decodeRuneNat : List Nat → Nat × Nat
  | [] => (0xFFFD, 1)
  | b0 :: rest =>
    if b0 < 0x80 then (b0, 1)
    else if 0xC2 ≤ b0 ∧ b0 ≤ 0xDF then
      match rest with
      | b1 :: _ =>
        if isCont b1 then ((b0 - 0xC0) * 64 + (b1 - 0x80), 2) else (0xFFFD, 1)
      | _ => (0xFFFD, 1)
    else if 0xE0 ≤ b0 ∧ b0 ≤ 0xEF then
      match rest with
      | b1 :: b2 :: _ =>
        if (if b0 = 0xE0 then 0xA0 else 0x80) ≤ b1 ∧ b1 ≤ (if b0 = 0xED then 0x9F else 0xBF) ∧
            isCont b2 then
          ((b0 - 0xE0) * 4096 + (b1 - 0x80) * 64 + (b2 - 0x80), 3)
        else (0xFFFD, 1)
      | _ => (0xFFFD, 1)
    else if 0xF0 ≤ b0 ∧ b0 ≤ 0xF4 then
      match rest with
      | b1 :: b2 :: b3 :: _ =>
        if (if b0 = 0xF0 then 0x90 else 0x80) ≤ b1 ∧ b1 ≤ (if b0 = 0xF4 then 0x8F else 0xBF) ∧
            isCont b2 ∧ isCont b3 then
          ((b0 - 0xF0) * 262144 + (b1 - 0x80) * 4096 + (b2 - 0x80) * 64 + (b3 - 0x80), 4)
        else (0xFFFD, 1)
      | _ => (0xFFFD, 1)
    else (0xFFFD, 1)

/-- The runes of a byte sequence, read front to back as the JSON encoder reads
them: an invalid byte gives U+FFFD and the reading goes on at the next byte.
The first argument bounds the number of runes; the length of the input is
enough. -/
def decodeRunes : Nat → List Nat → List Char
  | 0, _ => []
  | _, [] => []
  | fuel + 1, b :: rest =>
    Char.ofNat (decodeRuneNat (b :: rest)).1 ::
      decodeRunes fuel ((b :: rest).drop (decodeRuneNat (b :: rest)).2)

/-- The text of the JSON string that `encoding/json` writes for the Go string
with the given bytes.  Escapes are not part of the text: an escaped character
reads back as itself. -/
def marshalString (bytes : List UInt8) : String :=
  String.mk (decodeRunes bytes.length (bytes.map UInt8.toNat))

/-! ## JSON shape

The struct tags of `types.go` fix which keys an encoded value carries.  JSON
documents are kept as trees; an object is its list of members in the order in
which they were written. -/

/-- A JSON document. -/
inductive JSON where
  | null
  | bool (b : Bool)
  | num (n : Int)
  | str (s : String)
  | arr (items : List JSON)
  | obj (members : List (String × JSON))

/-- The value bound to `key` in a JSON object, if the document is an object and
has a member with exactly this key. -/
def JSON.member (key : String) : JSON → Option JSON
  | .obj members => members.lookup key
  | _ => none

/-- Whether exactly the key `key` is present in the JSON object `j`. -/
def JSON.hasKey (key : String) (j : JSON) : Bool := (j.member key).isSome

/-- Case folding of one character, as far as it matters for a comparison with
an ASCII name: ASCII letters fold to upper case, and the two characters outside
ASCII that Unicode folds to an ASCII letter, U+017F (long s) and U+212A (Kelvin
sign), fold to `S` and `K`. -/
def foldChar (c : Char) : Char :=
  if c = Char.ofNat 0x17F then 'S'
  else if c = Char.ofNat 0x212A then 'K'
  else c.toUpper

/-- Whether the field name `name` and the document key `key` are equal up to
case, as `encoding/json` compares them.  Every field name of `types.go` is
ASCII. -/
def equalFold (name key : String) : Bool :=
  decide (name.toList.map foldChar = key.toList.map foldChar)

/-- Whether the JSON object `j` has a key equal to `key` up to case. -/
def JSON.hasKeyFold (key : String) : JSON → Bool
  | .obj members => members.any (fun e => equalFold key e.1)
  | _ => false

/-- Encoding and decoding of the two imported types that occur inside a storage
value.  Decoding is into an existing value, as `encoding/json` does it, and
sees every document bound to the key, `null` included; the zero values are what
a freshly allocated CloudFront struct holds. -/
structure ExternalCodec (X : External) where
  zeroSelector : X.SecretKeySelector
  encodeSelector : X.SecretKeySelector → JSON
  decodeSelector : JSON → X.SecretKeySelector → Option X.SecretKeySelector
  zeroDuration : X.Duration
  encodeDuration : X.Duration → JSON
  decodeDuration : JSON → X.Duration → Option X.Duration

/-- The imported types survive a round trip through their own encoding, when
decoded into their zero value. -/
def ExternalCodec.Lawful {X : External} (c : ExternalCodec X) : Prop :=
  (∀ k, c.decodeSelector (c.encodeSelector k) c.zeroSelector = some k) ∧
  (∀ d, c.decodeDuration (c.encodeDuration d) c.zeroDuration = some d)

/-! ### Encoding -/

/-- A string field tagged `json:"key,omitempty"`: left out when empty. -/
def emitStringOmitEmpty (key value : String) (rest : List (String × JSON)) :
    List (String × JSON) :=
  if value = "" then rest else (key, .str (marshalString (goBytes value))) :: rest

/-- A string field tagged `json:"key"`: always written. -/
def emitString (key value : String) (rest : List (String × JSON)) : List (String × JSON) :=
  (key, .str (marshalString (goBytes value))) :: rest

/-- A boolean field tagged `json:"key,omitempty"`: left out when false. -/
def emitBoolOmitEmpty (key : String) (value : Bool) (rest : List (String × JSON)) :
    List (String × JSON) :=
  if value then (key, .bool true) :: rest else rest

/-- A boolean field tagged `json:"key"`: always written. -/
def emitBool (key : String) (value : Bool) (rest : List (String × JSON)) :
    List (String × JSON) :=
  (key, .bool value) :: rest

/-- A pointer field tagged `json:"key,omitempty"`: left out when nil, written
as the encoding of the value it points to otherwise. -/
def emitPointer {α : Type} (key : String) (enc : α → JSON) (value : Option α)
    (rest : List (String × JSON)) : List (String × JSON) :=
  match value with
  | none => rest
  | some v => (key, enc v) :: rest

/-- A struct-typed field: always written, `omitempty` has no effect on a
struct. -/
def emitValue (key : String) (value : JSON) (rest : List (String × JSON)) :
    List (String × JSON) :=
  (key, value) :: rest

/-! ### Decoding

`encoding/json` reads the members of an object in the order in which they are
written.  For each key it looks for the field with exactly this name and, when
there is none, for the first field whose name equals the key up to case; a key
that matches no field is skipped.  The value is then decoded into the field as
it stands, so a later member with a matching key overrides an earlier one. -/

/-- A field of a struct as the decoder sees it: its JSON name and how a
document is decoded into it. -/
structure Field (T : Type) where
  name : String
  set : JSON → T → Option T

/-- The field that the key `key` selects: an exact match first, a match up to
case otherwise. -/
def findField {T : Type} (fields : List (Field T)) (key : String) : Option (Field T) :=
  match fields.find? (fun f => decide (f.name = key)) with
  | some f => some f
  | none => fields.find? (fun f => equalFold f.name key)

/-- Decoding of one member into the value built so far. -/
def decodeStep {T : Type} (fields : List (Field T)) (key : String) (value : JSON) (acc : T) :
    Option T :=
  match findField fields key with
  | some f => f.set value acc
  | none => some acc

/-- Decoding of the members of an object, in order, into the value `acc`. -/
def decodeMembers {T : Type} (fields : List (Field T)) : List (String × JSON) → T → Option T
  | [], acc => some acc
  | (key, value) :: rest, acc =>
    (decodeStep fields key value acc).bind (decodeMembers fields rest)

/-- Decoding of a document into a struct value: an object is read member by
member, `null` leaves the value as it is, anything else is an error. -/
def decodeObject {T : Type} (fields : List (Field T)) : JSON → T → Option T
  | .obj members, acc => decodeMembers fields members acc
  | .null, acc => some acc
  | _, _ => none

/-- A string field: `null` leaves it as it is, a JSON string sets it to the Go
string holding the UTF-8 bytes of the text. -/
def stringField {T : Type} (name : String) (put : String → T → T) : Field T where
  name := name
  set := fun j a =>
    match j with
    | .null => some a
    | .str s => some (put s a)
    | _ => none

/-- A boolean field: `null` leaves it as it is. -/
def boolField {T : Type} (name : String) (put : Bool → T → T) : Field T where
  name := name
  set := fun j a =>
    match j with
    | .null => some a
    | .bool b => some (put b a)
    | _ => none

/-- A pointer field: `null` sets the pointer to nil; any other document is
decoded into the value pointed to, allocated with the zero value when the
pointer is nil. -/
def pointerField {T U : Type} (name : String) (get : T → Option U) (put : Option U → T → T)
    (zero : U) (decodeInto : JSON → U → Option U) : Field T where
  name := name
  set := fun j a =>
    match j with
    | .null => some (put none a)
    | _ => (decodeInto j ((get a).getD zero)).map (fun u => put (some u) a)

/-- A struct-typed field of an imported type: its own decoder sees the
document, whatever it is. -/
def valueField {T U : Type} (name : String) (get : T → U) (put : U → T → T)
    (decodeInto : JSON → U → Option U) : Field T where
  name := name
  set := fun j a => (decodeInto j (get a)).map (fun u => put u a)

/-! ### The storage types -/

/-- The zero value of `ImageRegistryConfigStorageS3CloudFront`. -/
def zeroCloudFront {X : External} (c : ExternalCodec X) :
    ImageRegistryConfigStorageS3CloudFront X :=
  { BaseURL := "", PrivateKey := c.zeroSelector, KeypairID := "", Duration := c.zeroDuration }

/-- JSON encoding of `ImageRegistryConfigStorageS3CloudFront`. -/
def encodeCloudFront {X : External} (c : ExternalCodec X)
    (v : ImageRegistryConfigStorageS3CloudFront X) : JSON :=
  .obj <|
    emitString "baseURL" v.BaseURL <|
    emitValue "privateKey" (c.encodeSelector v.PrivateKey) <|
    emitString "keypairID" v.KeypairID <|
    emitValue "duration" (c.encodeDuration v.Duration) []

/-- The JSON fields of `ImageRegistryConfigStorageS3CloudFront`. -/
def cloudFrontFields {X : External} (c : ExternalCodec X) :
    List (Field (ImageRegistryConfigStorageS3CloudFront X)) :=
  [ stringField "baseURL" (fun s a => { a with BaseURL := s }),
    valueField "privateKey" (fun a => a.PrivateKey) (fun k a => { a with PrivateKey := k })
      c.decodeSelector,
    stringField "keypairID" (fun s a => { a with KeypairID := s }),
    valueField "duration" (fun a => a.Duration) (fun d a => { a with Duration := d })
      c.decodeDuration ]

/-- JSON encoding of `ImageRegistryConfigStorageEmptyDir`: the empty object. -/
def encodeEmptyDir (_ : ImageRegistryConfigStorageEmptyDir) : JSON := .obj []

/-- The JSON fields of `ImageRegistryConfigStorageEmptyDir`: none. -/
def emptyDirFields : List (Field ImageRegistryConfigStorageEmptyDir) := []

/-- JSON encoding of `ImageRegistryConfigStorageS3`. -/
def encodeS3 {X : External} (c : ExternalCodec X) (v : ImageRegistryConfigStorageS3 X) : JSON :=
  .obj <|
    emitStringOmitEmpty "bucket" v.Bucket <|
    emitStringOmitEmpty "region" v.Region <|
    emitStringOmitEmpty "regionEndpoint" v.RegionEndpoint <|
    emitBoolOmitEmpty "encrypt" v.Encrypt <|
    emitStringOmitEmpty "keyID" v.KeyID <|
    emitPointer "cloudFront" (encodeCloudFront c) v.CloudFront <|
    emitBool "virtualHostedStyle" v.VirtualHostedStyle []

/-- The JSON fields of `ImageRegistryConfigStorageS3`. -/
def s3Fields {X : External} (c : ExternalCodec X) : List (Field (ImageRegistryConfigStorageS3 X)) :=
  [ stringField "bucket" (fun s a => { a with Bucket := s }),
    stringField "region" (fun s a => { a with Region := s }),
    stringField "regionEndpoint" (fun s a => { a with RegionEndpoint := s }),
    boolField "encrypt" (fun b a => { a with Encrypt := b }),
    stringField "keyID" (fun s a => { a with KeyID := s }),
    pointerField "cloudFront" (fun a => a.CloudFront) (fun p a => { a with CloudFront := p })
      (zeroCloudFront c) (decodeObject (cloudFrontFields c)),
    boolField "virtualHostedStyle" (fun b a => { a with VirtualHostedStyle := b }) ]

/-- JSON encoding of `ImageRegistryConfigStorageGCS`. -/
def encodeGCS (v : ImageRegistryConfigStorageGCS) : JSON :=
  .obj <|
    emitStringOmitEmpty "bucket" v.Bucket <|
    emitStringOmitEmpty "region" v.Region <|
    emitStringOmitEmpty "projectID" v.ProjectID <|
    emitStringOmitEmpty "keyID" v.KeyID []

/-- The JSON fields of `ImageRegistryConfigStorageGCS`. -/
def gcsFields : List (Field ImageRegistryConfigStorageGCS) :=
  [ stringField "bucket" (fun s a => { a with Bucket := s }),
    stringField "region" (fun s a => { a with Region := s }),
    stringField "projectID" (fun s a => { a with ProjectID := s }),
    stringField "keyID" (fun s a => { a with KeyID := s }) ]

/-- JSON encoding of `ImageRegistryConfigStorageSwift`. -/
def encodeSwift (v : ImageRegistryConfigStorageSwift) : JSON :=
  .obj <|
    emitStringOmitEmpty "authURL" v.AuthURL <|
    emitStringOmitEmpty "authVersion" v.AuthVersion <|
    emitStringOmitEmpty "container" v.Container <|
    emitStringOmitEmpty "domain" v.Domain <|
    emitStringOmitEmpty "domainID" v.DomainID <|
    emitStringOmitEmpty "tenant" v.Tenant <|
    emitStringOmitEmpty "tenantID" v.TenantID <|
    emitStringOmitEmpty "regionName" v.RegionName []

/-- The JSON fields of `ImageRegistryConfigStorageSwift`. -/
def swiftFields : List (Field ImageRegistryConfigStorageSwift) :=
  [ stringField "authURL" (fun s a => { a with AuthURL := s }),
    stringField "authVersion" (fun s a => { a with AuthVersion := s }),
    stringField "container" (fun s a => { a with Container := s }),
    stringField "domain" (fun s a => { a with Domain := s }),
    stringField "domainID" (fun s a => { a with DomainID := s }),
    stringField "tenant" (fun s a => { a with Tenant := s }),
    stringField "tenantID" (fun s a => { a with TenantID := s }),
    stringField "regionName" (fun s a => { a with RegionName := s }) ]

/-- JSON encoding of `ImageRegistryConfigStoragePVC`. -/
def encodePVC (v : ImageRegistryConfigStoragePVC) : JSON :=
  .obj <| emitStringOmitEmpty "claim" v.Claim []

/-- The JSON fields of `ImageRegistryConfigStoragePVC`. -/
def pvcFields : List (Field ImageRegistryConfigStoragePVC) :=
  [ stringField "claim" (fun s a => { a with Claim := s }) ]

/-- JSON encoding of `ImageRegistryConfigStorageAzure`. -/
def encodeAzure (v : ImageRegistryConfigStorageAzure) : JSON :=
  .obj <|
    emitStringOmitEmpty "accountName" v.AccountName <|
    emitStringOmitEmpty "container" v.Container <|
    emitStringOmitEmpty "cloudName" v.CloudName []

/-- The JSON fields of `ImageRegistryConfigStorageAzure`. -/
def azureFields : List (Field ImageRegistryConfigStorageAzure) :=
  [ stringField "accountName" (fun s a => { a with AccountName := s }),
    stringField "container" (fun s a => { a with Container := s }),
    stringField "cloudName" (fun s a => { a with CloudName := s }) ]

/-- JSON encoding of `ImageRegistryConfigStorageIBMCOS`. -/
def encodeIBMCOS (v : ImageRegistryConfigStorageIBMCOS) : JSON :=
  .obj <|
    emitStringOmitEmpty "bucket" v.Bucket <|
    emitStringOmitEmpty "location" v.Location <|
    emitStringOmitEmpty "resourceGroupName" v.ResourceGroupName <|
    emitStringOmitEmpty "resourceKeyCrn" v.ResourceKeyCRN <|
    emitStringOmitEmpty "serviceInstanceCrn" v.ServiceInstanceCRN []

/-- The JSON fields of `ImageRegistryConfigStorageIBMCOS`. -/
def ibmcosFields : List (Field ImageRegistryConfigStorageIBMCOS) :=
  [ stringField "bucket" (fun s a => { a with Bucket := s }),
    stringField "location" (fun s a => { a with Location := s }),
    stringField "resourceGroupName" (fun s a => { a with ResourceGroupName := s }),
    stringField "resourceKeyCrn" (fun s a => { a with ResourceKeyCRN := s }),
    stringField "serviceInstanceCrn" (fun s a => { a with ServiceInstanceCRN := s }) ]

/-- JSON encoding of `ImageRegistryConfigStorage`: every backend pointer and
the management state are tagged `omitempty`. -/
def encodeStorage {X : External} (c : ExternalCodec X) (v : ImageRegistryConfigStorage X) :
    JSON :=
  .obj <|
    emitPointer "emptyDir" encodeEmptyDir v.EmptyDir <|
    emitPointer "s3" (encodeS3 c) v.S3 <|
    emitPointer "gcs" encodeGCS v.GCS <|
    emitPointer "swift" encodeSwift v.Swift <|
    emitPointer "pvc" encodePVC v.PVC <|
    emitPointer "azure" encodeAzure v.Azure <|
    emitPointer "ibmcos" encodeIBMCOS v.IBMCOS <|
    emitStringOmitEmpty "managementState" v.ManagementState []

/-- The JSON fields of `ImageRegistryConfigStorage`. -/
def storageFields {X : External} (c : ExternalCodec X) :
    List (Field (ImageRegistryConfigStorage X)) :=
  [ pointerField "emptyDir" (fun a => a.EmptyDir) (fun p a => { a with EmptyDir := p }) {}
      (decodeObject emptyDirFields),
    pointerField "s3" (fun a => a.S3) (fun p a => { a with S3 := p }) {}
      (decodeObject (s3Fields c)),
    pointerField "gcs" (fun a => a.GCS) (fun p a => { a with GCS := p }) {}
      (decodeObject gcsFields),
    pointerField "swift" (fun a => a.Swift) (fun p a => { a with Swift := p }) {}
      (decodeObject swiftFields),
    pointerField "pvc" (fun a => a.PVC) (fun p a => { a with PVC := p }) {}
      (decodeObject pvcFields),
    pointerField "azure" (fun a => a.Azure) (fun p a => { a with Azure := p }) {}
      (decodeObject azureFields),
    pointerField "ibmcos" (fun a => a.IBMCOS) (fun p a => { a with IBMCOS := p }) {}
      (decodeObject ibmcosFields),
    stringField "managementState" (fun s a => { a with ManagementState := s }) ]

/-- JSON decoding of `ImageRegistryConfigStorage` into a zero value. -/
def decodeStorage {X : External} (c : ExternalCodec X) (j : JSON) :
    Option (ImageRegistryConfigStorage X) :=
  decodeObject (storageFields c) j {}

/-- Encoding of the sample imported types: the key name as a JSON string, which
`null` leaves as it is, and the nanosecond count as a JSON number. -/
def sampleCodec : ExternalCodec sampleExternal where
  zeroSelector := ""
  encodeSelector := fun (k : String) => JSON.str k
  decodeSelector := fun j cur => match j with
    | .str k => some k
    | .null => some cur
    | _ => none
  zeroDuration := (0 : Int)
  encodeDuration := fun (d : Int) => JSON.num d
  decodeDuration := fun j _ => match j with
    | .num d => some d
    | _ => none

/-! ## Validation markers

`types.go` attaches `+kubebuilder:validation` markers to three string fields.
A `Pattern` marker is a regular expression that the value must match somewhere;
all three patterns of `types.go` are anchored at both ends.  Regular expressions
are Mathlib's `RegularExpression Char`, matched by its derivative matcher
`rmatch`. -/

/-- The regular expression matching exactly the characters of `l` in a row. -/
def lit : List Char → RegularExpression Char
  | [] => 1
  | c :: cs => RegularExpression.char c * lit cs

/-- The regular expression matching any one character of `l`. -/
def cls : List Char → RegularExpression Char
  | [] => 0
  | c :: cs => RegularExpression.char c + cls cs

/-- The characters from `lo` to `hi`, both included: the range `lo-hi` of a
bracket expression. -/
def charRange (lo hi : Char) : List Char :=
  (List.range (hi.toNat + 1 - lo.toNat)).map (fun i => Char.ofNat (lo.toNat + i))

/-- One or more repetitions: the operator `+` of a pattern. -/
def plus1 (r : RegularExpression Char) : RegularExpression Char :=
  r * RegularExpression.star r

/-- A pattern: a regular expression with an optional `^` in front and an
optional `$` behind. -/
structure Pattern where
  anchorStart : Bool
  body : RegularExpression Char
  anchorEnd : Bool

/-- Whether the string `s` satisfies the pattern `p`: some part of `s` matches
the body, the part starting at the first character when the pattern begins
with `^` and ending at the last one when it ends with `$`. -/
def Pattern.accepts (p : Pattern) (s : String) : Bool :=
  match p.anchorStart, p.anchorEnd with
  | true, true => p.body.rmatch s.toList
  | true, false => s.toList.inits.any p.body.rmatch
  | false, true => s.toList.tails.any p.body.rmatch
  | false, false => s.toList.tails.any (fun t => t.inits.any p.body.rmatch)

/-- The marker on `ImageRegistrySpec.RolloutStrategy`:
`^(RollingUpdate|Recreate)$`. -/
def rolloutStrategyPattern : Pattern where
  anchorStart := true
  body := lit "RollingUpdate".toList + lit "Recreate".toList
  anchorEnd := true

/-- The marker on `ImageRegistryConfigStorage.ManagementState`:
`^(Managed|Unmanaged)$`. -/
def storageManagementStatePattern : Pattern where
  anchorStart := true
  body := lit "Managed".toList + lit "Unmanaged".toList
  anchorEnd := true

/-- The bracket expression `[0-9a-z]`. -/
def alnumChars : List Char := charRange '0' '9' ++ charRange 'a' 'z'

/-- The body `[0-9a-z]+(-[0-9a-z]+)*` of the container pattern. -/
def containerBody : RegularExpression Char :=
  plus1 (cls alnumChars) *
    RegularExpression.star (RegularExpression.char '-' * plus1 (cls alnumChars))

/-- The `Pattern` marker on `ImageRegistryConfigStorageAzure.Container`:
`^[0-9a-z]+(-[0-9a-z]+)*$`. -/
def azureContainerPattern : Pattern where
  anchorStart := true
  body := containerBody
  anchorEnd := true

/-- The `MinLength` marker on `ImageRegistryConfigStorageAzure.Container`. -/
def azureContainerMinLength : Nat := 3

/-- The `MaxLength` marker on `ImageRegistryConfigStorageAzure.Container`. -/
def azureContainerMaxLength : Nat := 63

/-- Whether a container name satisfies the three markers on
`ImageRegistryConfigStorageAzure.Container`; lengths count characters. -/
def azureContainerValid (c : String) : Bool :=
  decide (azureContainerMinLength ≤ c.length) && decide (c.length ≤ azureContainerMaxLength) &&
    azureContainerPattern.accepts c

/-- A digit or a lowercase ASCII letter. -/
def isAlnum (c : Char) : Bool := c.isDigit || c.isLower

/-- A direct recogniser for runs of digits and lowercase letters separated by
single dashes; the proofs go through it. -/
def dashSep : List Char → Bool
  | [] => false
  | [a] => isAlnum a
  | a :: b :: t => isAlnum a && (if b = '-' then dashSep t else dashSep (b :: t))

/-! ## Validator and storage normaliser

The specification describes a validator and a storage normaliser over the data
model.  The repository holds no code for either: `types.go` only declares the
types they would work on.  The definitions of this section follow the words of
the specification. -/

/-- Modelled from the spec: the fatal error kinds of the missing validator
("Error kinds: `MultipleBackendsConfigured`, `UnknownManagementState`,
`InvalidRolloutStrategy`, `DuplicateRouteName`,
`ReplicasExceedEphemeralLimit`"); the first one names the conflicting
variants. -/
inductive FatalError where
  | MultipleBackendsConfigured (variants : List String)
  | UnknownManagementState
  | InvalidRolloutStrategy
  | DuplicateRouteName
  | ReplicasExceedEphemeralLimit
  deriving DecidableEq

/-- Modelled from the spec: the advisory notice kinds of the missing validator
("`InvalidAdmissionLimit` (clamped + advisory, not fatal),
`DeprecatedFieldConflict` (advisory, not fatal)"). -/
inductive Advisory where
  | InvalidAdmissionLimit
  | DeprecatedFieldConflict
  deriving DecidableEq

/-- Modelled from the spec: the seven backend variants of the missing
normaliser in the "fixed (alphabetical) order" of its error message, each with
whether it is populated. -/
def backendTable {X : External} (s : ImageRegistryConfigStorage X) : List (String × Bool) :=
  [("azure", s.Azure.isSome), ("emptyDir", s.EmptyDir.isSome), ("gcs", s.GCS.isSome),
   ("ibmcos", s.IBMCOS.isSome), ("pvc", s.PVC.isSome), ("s3", s.S3.isSome),
   ("swift", s.Swift.isSome)]

/-- Modelled from the spec: the names of the populated variants, as the missing
normaliser lists them ("count populated variants"). -/
def populatedBackends {X : External} (s : ImageRegistryConfigStorage X) : List String :=
  ((backendTable s).filter (fun e => e.2)).map (fun e => e.1)

/-- Modelled from the spec: the deprecated-field migration of the missing
normaliser.  "`storageManaged=true` with no explicit `storage.managementState`
implies `storage.managementState = Managed`; explicit `storage.managementState`
always takes precedence over the deprecated boolean, and when both present and
disagree, the normalizer reports a `DeprecatedFieldConflict` [...] and uses
the explicit field."  The flag is `none` when no status object is migrated. -/
def migrateManagementState (explicit : String) (storageManaged : Option Bool) :
    String × List Advisory :=
  if explicit = "" then
    (if storageManaged = some true then StorageManagementStateManaged else "", [])
  else
    match storageManaged with
    | none => (explicit, [])
    | some flag =>
      if flag = decide (explicit = StorageManagementStateManaged) then (explicit, [])
      else (explicit, [Advisory.DeprecatedFieldConflict])

/-- Modelled from the spec: the missing Storage Configuration Normalizer.
"Count populated variants": with two or more it "fails with a
`MultipleBackendsConfigured` error, naming the conflicting variants"; with none
the result is unset and with one that variant is the backend, in both cases
after the deprecated-field migration.  The per-variant defaults the
specification names (S3 `virtualHostedStyle` false, Swift `authVersion` empty)
are the zero values of the fields, so defaulting changes nothing. -/
def normalizeStorage {X : External} (raw : ImageRegistryConfigStorage X)
    (storageManaged : Option Bool) :
    Except FatalError (ImageRegistryConfigStorage X × List Advisory) :=
  if 2 ≤ (populatedBackends raw).length then
    .error (.MultipleBackendsConfigured (populatedBackends raw))
  else
    let migrated := migrateManagementState raw.ManagementState storageManaged
    .ok ({ raw with ManagementState := migrated.1 }, migrated.2)

/-- Modelled from the spec: clamping of one integer limit by the missing
admission validation ("clamping negative inputs to zero with an advisory
notice"). -/
def clampLimit (n : Int) : Int × List Advisory :=
  if n < 0 then (0, [Advisory.InvalidAdmissionLimit]) else (n, [])

/-- Modelled from the spec: the missing admission validation of one limit
triple.  The specification leaves open what happens to a negative
`maxWaitInQueue`, so the treatment of the duration is the parameter
`durationRule`. -/
def normalizeLimits {X : External} (durationRule : X.Duration → X.Duration × List Advisory)
    (l : ImageRegistryConfigRequestsLimits X) :
    ImageRegistryConfigRequestsLimits X × List Advisory :=
  let running := clampLimit l.MaxRunning
  let queued := clampLimit l.MaxInQueue
  let wait := durationRule l.MaxWaitInQueue
  ({ MaxRunning := running.1, MaxInQueue := queued.1, MaxWaitInQueue := wait.1 },
    running.2 ++ queued.2 ++ wait.2)

/-- Modelled from the spec: the missing admission validation of the read and
write limits. -/
def normalizeRequests {X : External} (durationRule : X.Duration → X.Duration × List Advisory)
    (r : ImageRegistryConfigRequests X) : ImageRegistryConfigRequests X × List Advisory :=
  let read := normalizeLimits durationRule r.Read
  let write := normalizeLimits durationRule r.Write
  ({ Read := read.1, Write := write.1 }, read.2 ++ write.2)

/-- Modelled from the spec: the enum validation of the missing validator.  The
top-level state is one of Managed, Unmanaged, Removed; the storage state is
Managed or Unmanaged; the rollout strategy is "RollingUpdate" or "Recreate".
"Invalid string values for either enum fail closed with a
`UnknownManagementState` error."  An empty string is a field that was not
given and raises no error: the configurations that the specification lists as
succeeding give none of the three fields. -/
def enumErrors {X : External} (spec : ImageRegistrySpec X) : List FatalError :=
  (if spec.ManagementState ∈ ["", "Managed", "Unmanaged", "Removed"] then []
    else [FatalError.UnknownManagementState]) ++
  (if spec.Storage.ManagementState ∈
      ["", StorageManagementStateManaged, StorageManagementStateUnmanaged] then []
    else [FatalError.UnknownManagementState]) ++
  (if spec.RolloutStrategy ∈ ["", "RollingUpdate", "Recreate"] then []
    else [FatalError.InvalidRolloutStrategy])

/-- Modelled from the spec: the replica check of the missing validator
("`replicas > 1` is incompatible with an ephemeral storage backend"). -/
def replicaErrors {X : External} (spec : ImageRegistrySpec X) : List FatalError :=
  if spec.Storage.EmptyDir.isSome ∧ 1 < spec.Replicas then
    [FatalError.ReplicasExceedEphemeralLimit]
  else []

/-- Modelled from the spec: the route check of the missing validator ("names
unique within the sequence"). -/
def routeErrors (routes : List ImageRegistryConfigRoute) : List FatalError :=
  if (routes.map (fun r => r.Name)).Nodup then [] else [FatalError.DuplicateRouteName]

/-- Modelled from the spec: the missing Config Validator.  "Runs, in order:
enum validation (management states, rollout strategy) → Storage Normalizer →
Admission Config validation → cross-field checks (replicas vs. ephemeral
backend; route name uniqueness) → aggregate result.  Returns either a canonical
configuration plus advisory notices, or a non-empty ordered list of fatal
errors (validation does not short-circuit on the first error [...])." -/
def validate {X : External} (durationRule : X.Duration → X.Duration × List Advisory)
    (spec : ImageRegistrySpec X) (storageManaged : Option Bool) :
    Except (List FatalError) (ImageRegistrySpec X × List Advisory) :=
  let requests := normalizeRequests durationRule spec.Requests
  let cross := replicaErrors spec ++ routeErrors spec.Routes
  match normalizeStorage spec.Storage storageManaged with
  | .error e => .error (enumErrors spec ++ [e] ++ cross)
  | .ok (storage, advisories) =>
    match enumErrors spec ++ cross with
    | [] => .ok ({ spec with Storage := storage, Requests := requests.1 },
              advisories ++ requests.2)
    | e :: es => .error (e :: es)

/-- A duration rule for concrete examples: the duration is passed through. -/
def keepDuration (d : Int) : Int × List Advisory := (d, [])

/-- A concrete spec for examples: the given storage, routes and replicas,
everything else at its zero value. -/
def sampleSpec (storage : ImageRegistryConfigStorage sampleExternal)
    (routes : List ImageRegistryConfigRoute) (replicas : Int) :
    ImageRegistrySpec sampleExternal where
  OperatorSpec := ()
  ManagementState := ""
  Storage := storage
  Requests :=
    { Read := { MaxRunning := 0, MaxInQueue := 0, MaxWaitInQueue := (0 : Int) },
      Write := { MaxRunning := 0, MaxInQueue := 0, MaxWaitInQueue := (0 : Int) } }
  Routes := routes
  Replicas := replicas

/-- The fatal error of the storage normaliser as a list: empty when the
normaliser succeeds. -/
def storageErrors {X : External} (raw : ImageRegistryConfigStorage X)
    (storageManaged : Option Bool) : List FatalError :=
  match normalizeStorage raw storageManaged with
  | .error e => [e]
  | .ok _ => []

/-- The fatal errors of a spec in the order in which the validator reports
them. -/
def fatalErrors {X : External} (spec : ImageRegistrySpec X) (storageManaged : Option Bool) :
    List FatalError :=
  enumErrors spec ++ storageErrors spec.Storage storageManaged ++
    (replicaErrors spec ++ routeErrors spec.Routes)

/-- Two backends populated at once, the empty directory and S3, with no
management state. -/
def twoBackends : ImageRegistryConfigStorage sampleExternal :=
  { EmptyDir := some {}, S3 := some {} }

/-- The empty directory backend alone. -/
def emptyDirOnly : ImageRegistryConfigStorage sampleExternal :=
  { EmptyDir := some {} }

/-- A storage value with the empty directory and an S3 backend fronted by
CloudFront, in state Managed. -/
def sampleStorage : ImageRegistryConfigStorage sampleExternal :=
  { EmptyDir := some {},
    S3 := some { Bucket := "registry", Encrypt := true,
                 CloudFront := some { BaseURL := "https://cdn.example.com",
                                      PrivateKey := ("cloudfront-key" : String),
                                      KeypairID := "K1", Duration := (3600000000000 : Int) } },
    ManagementState := "Managed" }

/-- A status whose deprecated flag is set while the storage state is
Unmanaged. -/
def inconsistentStatus : ImageRegistryStatus sampleExternal :=
  { OperatorStatus := (), StorageManaged := true,
    Storage := { ManagementState := StorageManagementStateUnmanaged } }

/-! ## Go strings and JSON text -/

theorem decodeRuneNat_utf8Nat (n : Nat) (rest : List Nat)
    (hv : n < 0xD800 ∨ (0xDFFF < n ∧ n < 0x110000)) :
    decodeRuneNat (utf8Nat n ++ rest) = (n, (utf8Nat n).length) := by
  unfold utf8Nat
  by_cases h1 : n < 0x80
  · simp [h1, decodeRuneNat]
  · by_cases h2 : n < 0x800
    · have a1 : ¬ (0xC0 + n / 64 < 0x80) := by omega
      have a2 : 0xC2 ≤ 0xC0 + n / 64 ∧ 0xC0 + n / 64 ≤ 0xDF := by omega
      have a3 : 0x80 ≤ 0x80 + n % 64 := by omega
      have a4 : 0x80 + n % 64 ≤ 0xBF := by omega
      have a5 : (0xC0 + n / 64 - 0xC0) * 64 + (0x80 + n % 64 - 0x80) = n := by omega
      simp only [h1, h2, if_false, if_true, List.cons_append, List.nil_append, decodeRuneNat,
        isCont, a1, a2, a3, a4, a5, and_self, decide_True, Bool.and_self, List.length_cons,
        List.length_nil]
    · by_cases h3 : n < 0x10000
      · have a1 : ¬ (0xE0 + n / 4096 < 0x80) := by omega
        have a2 : ¬ (0xC2 ≤ 0xE0 + n / 4096 ∧ 0xE0 + n / 4096 ≤ 0xDF) := by omega
        have a3 : 0xE0 ≤ 0xE0 + n / 4096 ∧ 0xE0 + n / 4096 ≤ 0xEF := by omega
        have a4 : (if 0xE0 + n / 4096 = 0xE0 then 0xA0 else 0x80) ≤ 0x80 + n / 64 % 64 ∧
            0x80 + n / 64 % 64 ≤ (if 0xE0 + n / 4096 = 0xED then 0x9F else 0xBF) := by
          split_ifs <;> omega
        have a5 : 0x80 ≤ 0x80 + n % 64 := by omega
        have a6 : 0x80 + n % 64 ≤ 0xBF := by omega
        have a7 : (0xE0 + n / 4096 - 0xE0) * 4096 + (0x80 + n / 64 % 64 - 0x80) * 64 +
            (0x80 + n % 64 - 0x80) = n := by omega
        simp only [h1, h2, h3, if_false, if_true, List.cons_append, List.nil_append,
          decodeRuneNat, isCont, a1, a2, a3, a4, a5, a6, a7, and_self, decide_True,
          Bool.and_self, List.length_cons, List.length_nil]
      · have a1 : ¬ (0xF0 + n / 262144 < 0x80) := by omega
        have a2 : ¬ (0xC2 ≤ 0xF0 + n / 262144 ∧ 0xF0 + n / 262144 ≤ 0xDF) := by omega
        have a3 : ¬ (0xE0 ≤ 0xF0 + n / 262144 ∧ 0xF0 + n / 262144 ≤ 0xEF) := by omega
        have a3b : 0xF0 ≤ 0xF0 + n / 262144 ∧ 0xF0 + n / 262144 ≤ 0xF4 := by omega
        have a4 : (if 0xF0 + n / 262144 = 0xF0 then 0x90 else 0x80) ≤ 0x80 + n / 4096 % 64 ∧
            0x80 + n / 4096 % 64 ≤ (if 0xF0 + n / 262144 = 0xF4 then 0x8F else 0xBF) := by
          split_ifs <;> omega
        have a5 : 0x80 ≤ 0x80 + n % 64 := by omega
        have a6 : 0x80 + n % 64 ≤ 0xBF := by omega
        have a5b : 0x80 ≤ 0x80 + n / 64 % 64 := by omega
        have a6b : 0x80 + n / 64 % 64 ≤ 0xBF := by omega
        have a7 : (0xF0 + n / 262144 - 0xF0) * 262144 + (0x80 + n / 4096 % 64 - 0x80) * 4096 +
            (0x80 + n / 64 % 64 - 0x80) * 64 + (0x80 + n % 64 - 0x80) = n := by omega
        simp only [h1, h2, h3, if_false, if_true, List.cons_append, List.nil_append,
          decodeRuneNat, isCont, a1, a2, a3, a3b, a4, a5, a6, a5b, a6b, a7, and_self,
          decide_True, Bool.and_self, List.length_cons, List.length_nil]

theorem char_valid (c : Char) : c.toNat < 0xD800 ∨ (0xDFFF < c.toNat ∧ c.toNat < 0x110000) := by
  have h := c.valid
  simp only [UInt32.isValidChar, Nat.isValidChar] at h
  exact h

theorem utf8Nat_lt (n : Nat) (h : n < 0x110000) : ∀ b ∈ utf8Nat n, b < 256 := by
  unfold utf8Nat
  intro b hb
  split_ifs at hb <;> simp at hb <;> omega

theorem utf8Nat_ne_nil (n : Nat) : utf8Nat n ≠ [] := by
  unfold utf8Nat
  split_ifs <;> simp

theorem map_toNat_utf8Bytes (c : Char) : (utf8Bytes c).map UInt8.toNat = utf8Nat c.toNat := by
  have hlt := utf8Nat_lt c.toNat (by rcases char_valid c with h | h <;> omega)
  unfold utf8Bytes
  rw [List.map_map]
  conv_rhs => rw [← List.map_id (utf8Nat c.toNat)]
  apply List.map_congr_left
  intro b hb
  have := hlt b hb
  simp [UInt8.toNat, UInt8.ofNat, Fin.ofNat]
  omega

theorem decodeRunes_utf8 (cs : List Char) :
    ∀ fuel, cs.length ≤ fuel →
      decodeRunes fuel ((cs.flatMap utf8Bytes).map UInt8.toNat) = cs := by
  induction cs with
  | nil =>
    intro fuel _
    cases fuel <;> rfl
  | cons c cs ih =>
    intro fuel hf
    cases fuel with
    | zero => simp at hf
    | succ fuel =>
      simp only [List.flatMap_cons, List.map_append, map_toNat_utf8Bytes]
      obtain ⟨b, bs, hb⟩ := List.exists_cons_of_ne_nil (utf8Nat_ne_nil c.toNat)
      have hd := decodeRuneNat_utf8Nat c.toNat ((cs.flatMap utf8Bytes).map UInt8.toNat)
        (char_valid c)
      rw [hb] at hd ⊢
      simp only [List.cons_append] at hd ⊢
      rw [decodeRunes, hd]
      simp only [Char.ofNat_toNat, List.cons.injEq, true_and]
      rw [← List.cons_append, List.drop_left]
      exact ih fuel (by simpa using hf)

theorem length_le_goBytes (cs : List Char) : cs.length ≤ (cs.flatMap utf8Bytes).length := by
  induction cs with
  | nil => simp
  | cons c cs ih =>
    have : 1 ≤ (utf8Bytes c).length := by
      unfold utf8Bytes
      rw [List.length_map]
      exact List.length_pos.mpr (utf8Nat_ne_nil _)
    simp only [List.flatMap_cons, List.length_append, List.length_cons]
    omega

theorem marshalString_goBytes (t : String) : marshalString (goBytes t) = t := by
  unfold marshalString goBytes
  rw [decodeRunes_utf8 _ _ (length_le_goBytes _)]
  rfl


/-! ## JSON round trip -/

theorem decodeMembers_emitStringOmitEmpty {T : Type} (fields : List (Field T))
    (key value : String) (rest : List (String × JSON)) (acc : T) (put : String → T → T)
    (hstep : ∀ s, decodeStep fields key (.str s) acc = some (put s acc))
    (hzero : put "" acc = acc) :
    decodeMembers fields (emitStringOmitEmpty key value rest) acc =
      decodeMembers fields rest (put value acc) := by
  unfold emitStringOmitEmpty
  split
  · next h => rw [h, hzero]
  · simp [decodeMembers, hstep, marshalString_goBytes]

theorem decodeMembers_emitString {T : Type} (fields : List (Field T))
    (key value : String) (rest : List (String × JSON)) (acc : T) (put : String → T → T)
    (hstep : ∀ s, decodeStep fields key (.str s) acc = some (put s acc)) :
    decodeMembers fields (emitString key value rest) acc =
      decodeMembers fields rest (put value acc) := by
  simp [emitString, decodeMembers, hstep, marshalString_goBytes]

theorem decodeMembers_emitBoolOmitEmpty {T : Type} (fields : List (Field T))
    (key : String) (value : Bool) (rest : List (String × JSON)) (acc : T) (put : Bool → T → T)
    (hstep : ∀ b, decodeStep fields key (.bool b) acc = some (put b acc))
    (hzero : put false acc = acc) :
    decodeMembers fields (emitBoolOmitEmpty key value rest) acc =
      decodeMembers fields rest (put value acc) := by
  cases value
  · simp [emitBoolOmitEmpty, hzero]
  · simp [emitBoolOmitEmpty, decodeMembers, hstep]

theorem decodeMembers_emitBool {T : Type} (fields : List (Field T))
    (key : String) (value : Bool) (rest : List (String × JSON)) (acc : T) (put : Bool → T → T)
    (hstep : ∀ b, decodeStep fields key (.bool b) acc = some (put b acc)) :
    decodeMembers fields (emitBool key value rest) acc =
      decodeMembers fields rest (put value acc) := by
  simp [emitBool, decodeMembers, hstep]

theorem decodeMembers_emitPointer {T U : Type} (fields : List (Field T))
    (key : String) (enc : U → JSON) (value : Option U) (rest : List (String × JSON)) (acc : T)
    (put : Option U → T → T)
    (hstep : ∀ u, decodeStep fields key (enc u) acc = some (put (some u) acc))
    (hzero : put none acc = acc) :
    decodeMembers fields (emitPointer key enc value rest) acc =
      decodeMembers fields rest (put value acc) := by
  cases value with
  | none => simp [emitPointer, hzero]
  | some u => simp [emitPointer, decodeMembers, hstep]

theorem decodeMembers_emitValue {T U : Type} (fields : List (Field T))
    (key : String) (value : JSON) (rest : List (String × JSON)) (acc : T) (u : U)
    (put : U → T → T) (hstep : decodeStep fields key value acc = some (put u acc)) :
    decodeMembers fields (emitValue key value rest) acc =
      decodeMembers fields rest (put u acc) := by
  simp [emitValue, decodeMembers, hstep]

theorem gcs_roundtrip (v : ImageRegistryConfigStorageGCS) :
    decodeObject gcsFields (encodeGCS v) {} = some v := by
  simp only [encodeGCS, decodeObject]
  rw [decodeMembers_emitStringOmitEmpty _ _ _ _ _ (fun s a => { a with Bucket := s }),
      decodeMembers_emitStringOmitEmpty _ _ _ _ _ (fun s a => { a with Region := s }),
      decodeMembers_emitStringOmitEmpty _ _ _ _ _ (fun s a => { a with ProjectID := s }),
      decodeMembers_emitStringOmitEmpty _ _ _ _ _ (fun s a => { a with KeyID := s })]
  all_goals first | rfl | (intro s; rfl)

theorem swift_roundtrip (v : ImageRegistryConfigStorageSwift) :
    decodeObject swiftFields (encodeSwift v) {} = some v := by
  simp only [encodeSwift, decodeObject]
  rw [decodeMembers_emitStringOmitEmpty _ _ _ _ _ (fun s a => { a with AuthURL := s }),
      decodeMembers_emitStringOmitEmpty _ _ _ _ _ (fun s a => { a with AuthVersion := s }),
      decodeMembers_emitStringOmitEmpty _ _ _ _ _ (fun s a => { a with Container := s }),
      decodeMembers_emitStringOmitEmpty _ _ _ _ _ (fun s a => { a with Domain := s }),
      decodeMembers_emitStringOmitEmpty _ _ _ _ _ (fun s a => { a with DomainID := s }),
      decodeMembers_emitStringOmitEmpty _ _ _ _ _ (fun s a => { a with Tenant := s }),
      decodeMembers_emitStringOmitEmpty _ _ _ _ _ (fun s a => { a with TenantID := s }),
      decodeMembers_emitStringOmitEmpty _ _ _ _ _ (fun s a => { a with RegionName := s })]
  all_goals first | rfl | (intro s; rfl)

theorem pvc_roundtrip (v : ImageRegistryConfigStoragePVC) :
    decodeObject pvcFields (encodePVC v) {} = some v := by
  simp only [encodePVC, decodeObject]
  rw [decodeMembers_emitStringOmitEmpty _ _ _ _ _ (fun s a => { a with Claim := s })]
  all_goals first | rfl | (intro s; rfl)

theorem azure_roundtrip (v : ImageRegistryConfigStorageAzure) :
    decodeObject azureFields (encodeAzure v) {} = some v := by
  simp only [encodeAzure, decodeObject]
  rw [decodeMembers_emitStringOmitEmpty _ _ _ _ _ (fun s a => { a with AccountName := s }),
      decodeMembers_emitStringOmitEmpty _ _ _ _ _ (fun s a => { a with Container := s }),
      decodeMembers_emitStringOmitEmpty _ _ _ _ _ (fun s a => { a with CloudName := s })]
  all_goals first | rfl | (intro s; rfl)

theorem ibmcos_roundtrip (v : ImageRegistryConfigStorageIBMCOS) :
    decodeObject ibmcosFields (encodeIBMCOS v) {} = some v := by
  simp only [encodeIBMCOS, decodeObject]
  rw [decodeMembers_emitStringOmitEmpty _ _ _ _ _ (fun s a => { a with Bucket := s }),
      decodeMembers_emitStringOmitEmpty _ _ _ _ _ (fun s a => { a with Location := s }),
      decodeMembers_emitStringOmitEmpty _ _ _ _ _ (fun s a => { a with ResourceGroupName := s }),
      decodeMembers_emitStringOmitEmpty _ _ _ _ _ (fun s a => { a with ResourceKeyCRN := s }),
      decodeMembers_emitStringOmitEmpty _ _ _ _ _
        (fun s a => { a with ServiceInstanceCRN := s })]
  all_goals first | rfl | (intro s; rfl)

theorem emptyDir_roundtrip (v : ImageRegistryConfigStorageEmptyDir) :
    decodeObject emptyDirFields (encodeEmptyDir v) {} = some v := by
  cases v
  rfl

theorem pointerField_set_encoded {T U : Type} (name : String) (get : T → Option U)
    (put : Option U → T → T) (zero : U) (decodeInto : JSON → U → Option U) (j : JSON) (a : T)
    (u : U) (hj : j ≠ .null) (hget : get a = none) (hdec : decodeInto j zero = some u) :
    (pointerField name get put zero decodeInto).set j a = some (put (some u) a) := by
  simp [pointerField, hget, hdec]

theorem cloudFront_roundtrip {X : External} (c : ExternalCodec X) (hc : c.Lawful)
    (v : ImageRegistryConfigStorageS3CloudFront X) :
    decodeObject (cloudFrontFields c) (encodeCloudFront c v) (zeroCloudFront c) = some v := by
  obtain ⟨hk, hd⟩ := hc
  simp only [encodeCloudFront, decodeObject]
  rw [decodeMembers_emitString _ _ _ _ _ (fun s a => { a with BaseURL := s }),
      decodeMembers_emitValue _ _ _ _ _ v.PrivateKey (fun k a => { a with PrivateKey := k }),
      decodeMembers_emitString _ _ _ _ _ (fun s a => { a with KeypairID := s }),
      decodeMembers_emitValue _ _ _ _ _ v.Duration (fun d a => { a with Duration := d })]
  · rfl
  · show Option.map _ (c.decodeDuration _ c.zeroDuration) = _
    rw [hd]
    rfl
  · intro s
    rfl
  · show Option.map _ (c.decodeSelector _ c.zeroSelector) = _
    rw [hk]
    rfl
  · intro s
    rfl

theorem s3_roundtrip {X : External} (c : ExternalCodec X) (hc : c.Lawful)
    (v : ImageRegistryConfigStorageS3 X) :
    decodeObject (s3Fields c) (encodeS3 c v) {} = some v := by
  simp only [encodeS3, decodeObject]
  rw [decodeMembers_emitStringOmitEmpty _ _ _ _ _ (fun s a => { a with Bucket := s }),
      decodeMembers_emitStringOmitEmpty _ _ _ _ _ (fun s a => { a with Region := s }),
      decodeMembers_emitStringOmitEmpty _ _ _ _ _ (fun s a => { a with RegionEndpoint := s }),
      decodeMembers_emitBoolOmitEmpty _ _ _ _ _ (fun b a => { a with Encrypt := b }),
      decodeMembers_emitStringOmitEmpty _ _ _ _ _ (fun s a => { a with KeyID := s }),
      decodeMembers_emitPointer _ _ _ _ _ _ (fun p a => { a with CloudFront := p }),
      decodeMembers_emitBool _ _ _ _ _ (fun b a => { a with VirtualHostedStyle := b })]
  all_goals first
    | rfl
    | (intro s; rfl)
    | (intro u
       exact pointerField_set_encoded _ _ _ _ _ _ _ u (by simp [encodeCloudFront]) rfl
         (cloudFront_roundtrip c hc u))

theorem storage_roundtrip {X : External} (c : ExternalCodec X) (hc : c.Lawful)
    (v : ImageRegistryConfigStorage X) : decodeStorage c (encodeStorage c v) = some v := by
  simp only [decodeStorage, encodeStorage, decodeObject]
  rw [decodeMembers_emitPointer _ _ _ _ _ _ (fun p a => { a with EmptyDir := p }),
      decodeMembers_emitPointer _ _ _ _ _ _ (fun p a => { a with S3 := p }),
      decodeMembers_emitPointer _ _ _ _ _ _ (fun p a => { a with GCS := p }),
      decodeMembers_emitPointer _ _ _ _ _ _ (fun p a => { a with Swift := p }),
      decodeMembers_emitPointer _ _ _ _ _ _ (fun p a => { a with PVC := p }),
      decodeMembers_emitPointer _ _ _ _ _ _ (fun p a => { a with Azure := p }),
      decodeMembers_emitPointer _ _ _ _ _ _ (fun p a => { a with IBMCOS := p }),
      decodeMembers_emitStringOmitEmpty _ _ _ _ _ (fun s a => { a with ManagementState := s })]
  all_goals first
    | rfl
    | (intro s; rfl)
    | (intro u
       exact pointerField_set_encoded _ _ _ _ _ _ _ u (by simp [encodeS3]) rfl
         (s3_roundtrip c hc u))
    | (intro u
       exact pointerField_set_encoded _ _ _ _ _ _ _ u (by simp [encodeGCS]) rfl
         (gcs_roundtrip u))
    | (intro u
       exact pointerField_set_encoded _ _ _ _ _ _ _ u (by simp [encodeSwift]) rfl
         (swift_roundtrip u))
    | (intro u
       exact pointerField_set_encoded _ _ _ _ _ _ _ u (by simp [encodePVC]) rfl
         (pvc_roundtrip u))
    | (intro u
       exact pointerField_set_encoded _ _ _ _ _ _ _ u (by simp [encodeAzure]) rfl
         (azure_roundtrip u))
    | (intro u
       exact pointerField_set_encoded _ _ _ _ _ _ _ u (by simp [encodeIBMCOS]) rfl
         (ibmcos_roundtrip u))

theorem lookup_cons_ne (k key : String) (v : JSON) (rest : List (String × JSON)) (h : k ≠ key) :
    ((key, v) :: rest).lookup k = rest.lookup k := by
  have hb : (k == key) = false := by simpa using h
  simp [List.lookup, hb]

theorem lookup_cons_self (key : String) (v : JSON) (rest : List (String × JSON)) :
    ((key, v) :: rest).lookup key = some v := by
  simp [List.lookup]

theorem lookup_emitStringOmitEmpty_ne (k key value : String) (rest : List (String × JSON))
    (h : k ≠ key) : (emitStringOmitEmpty key value rest).lookup k = rest.lookup k := by
  unfold emitStringOmitEmpty
  split
  · rfl
  · exact lookup_cons_ne k key _ rest h

theorem lookup_emitPointer_ne {α : Type} (k key : String) (enc : α → JSON) (value : Option α)
    (rest : List (String × JSON)) (h : k ≠ key) :
    (emitPointer key enc value rest).lookup k = rest.lookup k := by
  cases value with
  | none => rfl
  | some v => exact lookup_cons_ne k key _ rest h

theorem lookup_emitPointer_self {α : Type} (key : String) (enc : α → JSON) (value : Option α)
    (rest : List (String × JSON)) :
    (emitPointer key enc value rest).lookup key =
      match value with
      | none => rest.lookup key
      | some v => some (enc v) := by
  cases value with
  | none => rfl
  | some v => exact lookup_cons_self key _ rest

theorem encodeStorage_hasKey {X : External} (c : ExternalCodec X)
    (s : ImageRegistryConfigStorage X) :
    (encodeStorage c s).hasKey "emptyDir" = s.EmptyDir.isSome ∧
    (encodeStorage c s).hasKey "s3" = s.S3.isSome ∧
    (encodeStorage c s).hasKey "gcs" = s.GCS.isSome ∧
    (encodeStorage c s).hasKey "swift" = s.Swift.isSome ∧
    (encodeStorage c s).hasKey "pvc" = s.PVC.isSome ∧
    (encodeStorage c s).hasKey "azure" = s.Azure.isSome ∧
    (encodeStorage c s).hasKey "ibmcos" = s.IBMCOS.isSome := by
  refine ⟨?_, ?_, ?_, ?_, ?_, ?_, ?_⟩ <;>
  · simp only [JSON.hasKey, JSON.member, encodeStorage]
    simp [lookup_emitStringOmitEmpty_ne, lookup_emitPointer_ne, lookup_emitPointer_self]
    split <;> simp [*]

theorem equalFold_self (a : String) : equalFold a a = true := by
  simp [equalFold]

theorem findField_spec {T : Type} (fields : List (Field T)) (key : String) (f : Field T)
    (h : findField fields key = some f) : f ∈ fields ∧ equalFold f.name key = true := by
  unfold findField at h
  split at h
  · next g hg =>
    cases h
    have hm := List.mem_of_find?_eq_some hg
    have hp := List.find?_some hg
    simp only [decide_eq_true_eq] at hp
    exact ⟨hm, by rw [hp]; exact equalFold_self key⟩
  · exact ⟨List.mem_of_find?_eq_some h,
      @List.find?_some (Field T) (fun g => equalFold g.name key) f fields h⟩

theorem decodeMembers_unchanged {T β : Type} (fields : List (Field T)) (proj : T → β)
    (name : String)
    (hother : ∀ f ∈ fields, f.name ≠ name →
      ∀ j a a', f.set j a = some a' → proj a' = proj a)
    (m : List (String × JSON)) (hno : ∀ e ∈ m, equalFold name e.1 = false) :
    ∀ acc res, decodeMembers fields m acc = some res → proj res = proj acc := by
  induction m with
  | nil =>
    intro acc res h
    simp only [decodeMembers, Option.some.injEq] at h
    rw [h]
  | cons e m ih =>
    intro acc res h
    obtain ⟨k, v⟩ := e
    simp only [decodeMembers, Option.bind_eq_some] at h
    obtain ⟨mid, hstep, hrest⟩ := h
    have hmid : proj mid = proj acc := by
      unfold decodeStep at hstep
      split at hstep
      · next f hf =>
        obtain ⟨hmem, hfold⟩ := findField_spec fields k f hf
        have hne : f.name ≠ name := by
          intro heq
          rw [heq, hno (k, v) (List.mem_cons_self _ _)] at hfold
          exact Bool.noConfusion hfold
        exact hother f hmem hne v acc mid hstep
      · cases hstep
        rfl
    rw [ih (fun e he => hno e (List.mem_cons_of_mem _ he)) mid res hrest, hmid]

theorem pointerField_set_shape {T U : Type} (name : String) (get : T → Option U)
    (put : Option U → T → T) (zero : U) (decodeInto : JSON → U → Option U) (j : JSON)
    (a a' : T) (h : (pointerField name get put zero decodeInto).set j a = some a') :
    ∃ p, a' = put p a := by
  simp only [pointerField] at h
  split at h
  · exact ⟨none, (Option.some.inj h).symm⟩
  · simp only [Option.map_eq_some'] at h
    obtain ⟨u, _, hu⟩ := h
    exact ⟨some u, hu.symm⟩

theorem stringField_set_shape {T : Type} (name : String) (put : String → T → T) (j : JSON)
    (a a' : T) (h : (stringField name put).set j a = some a') :
    a' = a ∨ ∃ s, a' = put s a := by
  simp only [stringField] at h
  split at h
  · exact Or.inl (Option.some.inj h).symm
  · exact Or.inr ⟨_, (Option.some.inj h).symm⟩
  · cases h

theorem storageFields_keep_emptyDir {X : External} (c : ExternalCodec X) :
    ∀ f ∈ storageFields c, f.name ≠ "emptyDir" →
      ∀ j a a', f.set j a = some a' → a'.EmptyDir = a.EmptyDir := by
  intro f hf hne j a a' hset
  simp only [storageFields, List.mem_cons, List.mem_singleton, List.not_mem_nil, or_false] at hf
  rcases hf with rfl | rfl | rfl | rfl | rfl | rfl | rfl | rfl
  all_goals first
    | exact absurd rfl hne
    | (obtain ⟨p, rfl⟩ := pointerField_set_shape _ _ _ _ _ _ _ _ hset
       rfl)
    | (rcases stringField_set_shape _ _ _ _ _ hset with rfl | ⟨s, rfl⟩ <;> rfl)

theorem storageFields_keep_s3 {X : External} (c : ExternalCodec X) :
    ∀ f ∈ storageFields c, f.name ≠ "s3" →
      ∀ j a a', f.set j a = some a' → a'.S3 = a.S3 := by
  intro f hf hne j a a' hset
  simp only [storageFields, List.mem_cons, List.mem_singleton, List.not_mem_nil, or_false] at hf
  rcases hf with rfl | rfl | rfl | rfl | rfl | rfl | rfl | rfl
  all_goals first
    | exact absurd rfl hne
    | (obtain ⟨p, rfl⟩ := pointerField_set_shape _ _ _ _ _ _ _ _ hset
       rfl)
    | (rcases stringField_set_shape _ _ _ _ _ hset with rfl | ⟨s, rfl⟩ <;> rfl)

theorem storageFields_keep_gcs {X : External} (c : ExternalCodec X) :
    ∀ f ∈ storageFields c, f.name ≠ "gcs" →
      ∀ j a a', f.set j a = some a' → a'.GCS = a.GCS := by
  intro f hf hne j a a' hset
  simp only [storageFields, List.mem_cons, List.mem_singleton, List.not_mem_nil, or_false] at hf
  rcases hf with rfl | rfl | rfl | rfl | rfl | rfl | rfl | rfl
  all_goals first
    | exact absurd rfl hne
    | (obtain ⟨p, rfl⟩ := pointerField_set_shape _ _ _ _ _ _ _ _ hset
       rfl)
    | (rcases stringField_set_shape _ _ _ _ _ hset with rfl | ⟨s, rfl⟩ <;> rfl)

theorem storageFields_keep_swift {X : External} (c : ExternalCodec X) :
    ∀ f ∈ storageFields c, f.name ≠ "swift" →
      ∀ j a a', f.set j a = some a' → a'.Swift = a.Swift := by
  intro f hf hne j a a' hset
  simp only [storageFields, List.mem_cons, List.mem_singleton, List.not_mem_nil, or_false] at hf
  rcases hf with rfl | rfl | rfl | rfl | rfl | rfl | rfl | rfl
  all_goals first
    | exact absurd rfl hne
    | (obtain ⟨p, rfl⟩ := pointerField_set_shape _ _ _ _ _ _ _ _ hset
       rfl)
    | (rcases stringField_set_shape _ _ _ _ _ hset with rfl | ⟨s, rfl⟩ <;> rfl)

theorem storageFields_keep_pvc {X : External} (c : ExternalCodec X) :
    ∀ f ∈ storageFields c, f.name ≠ "pvc" →
      ∀ j a a', f.set j a = some a' → a'.PVC = a.PVC := by
  intro f hf hne j a a' hset
  simp only [storageFields, List.mem_cons, List.mem_singleton, List.not_mem_nil, or_false] at hf
  rcases hf with rfl | rfl | rfl | rfl | rfl | rfl | rfl | rfl
  all_goals first
    | exact absurd rfl hne
    | (obtain ⟨p, rfl⟩ := pointerField_set_shape _ _ _ _ _ _ _ _ hset
       rfl)
    | (rcases stringField_set_shape _ _ _ _ _ hset with rfl | ⟨s, rfl⟩ <;> rfl)

theorem storageFields_keep_azure {X : External} (c : ExternalCodec X) :
    ∀ f ∈ storageFields c, f.name ≠ "azure" →
      ∀ j a a', f.set j a = some a' → a'.Azure = a.Azure := by
  intro f hf hne j a a' hset
  simp only [storageFields, List.mem_cons, List.mem_singleton, List.not_mem_nil, or_false] at hf
  rcases hf with rfl | rfl | rfl | rfl | rfl | rfl | rfl | rfl
  all_goals first
    | exact absurd rfl hne
    | (obtain ⟨p, rfl⟩ := pointerField_set_shape _ _ _ _ _ _ _ _ hset
       rfl)
    | (rcases stringField_set_shape _ _ _ _ _ hset with rfl | ⟨s, rfl⟩ <;> rfl)

theorem storageFields_keep_ibmcos {X : External} (c : ExternalCodec X) :
    ∀ f ∈ storageFields c, f.name ≠ "ibmcos" →
      ∀ j a a', f.set j a = some a' → a'.IBMCOS = a.IBMCOS := by
  intro f hf hne j a a' hset
  simp only [storageFields, List.mem_cons, List.mem_singleton, List.not_mem_nil, or_false] at hf
  rcases hf with rfl | rfl | rfl | rfl | rfl | rfl | rfl | rfl
  all_goals first
    | exact absurd rfl hne
    | (obtain ⟨p, rfl⟩ := pointerField_set_shape _ _ _ _ _ _ _ _ hset
       rfl)
    | (rcases stringField_set_shape _ _ _ _ _ hset with rfl | ⟨s, rfl⟩ <;> rfl)

theorem hasKeyFold_false (key : String) (m : List (String × JSON))
    (h : (JSON.obj m).hasKeyFold key = false) : ∀ e ∈ m, equalFold key e.1 = false := by
  simpa [JSON.hasKeyFold] using h

theorem decodeStorage_populated {X : External} (c : ExternalCodec X) (j : JSON)
    (t : ImageRegistryConfigStorage X) (h : decodeStorage c j = some t) :
    (t.EmptyDir.isSome = true → j.hasKeyFold "emptyDir" = true) ∧
    (t.S3.isSome = true → j.hasKeyFold "s3" = true) ∧
    (t.GCS.isSome = true → j.hasKeyFold "gcs" = true) ∧
    (t.Swift.isSome = true → j.hasKeyFold "swift" = true) ∧
    (t.PVC.isSome = true → j.hasKeyFold "pvc" = true) ∧
    (t.Azure.isSome = true → j.hasKeyFold "azure" = true) ∧
    (t.IBMCOS.isSome = true → j.hasKeyFold "ibmcos" = true) := by
  cases j with
  | obj m =>
    simp only [decodeStorage, decodeObject] at h
    refine ⟨?_, ?_, ?_, ?_, ?_, ?_, ?_⟩ <;> intro hp <;> by_contra hk <;>
      rw [Bool.not_eq_true] at hk
    · rw [decodeMembers_unchanged _ (fun a => a.EmptyDir) "emptyDir"
        (storageFields_keep_emptyDir c) m (hasKeyFold_false _ m hk) _ t h] at hp
      exact Bool.noConfusion hp
    · rw [decodeMembers_unchanged _ (fun a => a.S3) "s3"
        (storageFields_keep_s3 c) m (hasKeyFold_false _ m hk) _ t h] at hp
      exact Bool.noConfusion hp
    · rw [decodeMembers_unchanged _ (fun a => a.GCS) "gcs"
        (storageFields_keep_gcs c) m (hasKeyFold_false _ m hk) _ t h] at hp
      exact Bool.noConfusion hp
    · rw [decodeMembers_unchanged _ (fun a => a.Swift) "swift"
        (storageFields_keep_swift c) m (hasKeyFold_false _ m hk) _ t h] at hp
      exact Bool.noConfusion hp
    · rw [decodeMembers_unchanged _ (fun a => a.PVC) "pvc"
        (storageFields_keep_pvc c) m (hasKeyFold_false _ m hk) _ t h] at hp
      exact Bool.noConfusion hp
    · rw [decodeMembers_unchanged _ (fun a => a.Azure) "azure"
        (storageFields_keep_azure c) m (hasKeyFold_false _ m hk) _ t h] at hp
      exact Bool.noConfusion hp
    · rw [decodeMembers_unchanged _ (fun a => a.IBMCOS) "ibmcos"
        (storageFields_keep_ibmcos c) m (hasKeyFold_false _ m hk) _ t h] at hp
      exact Bool.noConfusion hp
  | null =>
    simp only [decodeStorage, decodeObject, Option.some.injEq] at h
    subst h
    simp
  | bool b => simp [decodeStorage, decodeObject] at h
  | num n => simp [decodeStorage, decodeObject] at h
  | str s => simp [decodeStorage, decodeObject] at h
  | arr l => simp [decodeStorage, decodeObject] at h

/-! ## Validation markers -/

section Markers

open RegularExpression

theorem matches'_lit (l : List Char) : (lit l).matches' = {l} := by
  induction l with
  | nil => simp [lit]; rfl
  | cons c cs ih =>
    simp only [lit, matches'_mul, ih, matches'_char]
    ext w
    simp only [Language.mem_mul]
    constructor
    · rintro ⟨a, ha, b, hb, rfl⟩
      rw [Set.mem_singleton_iff.mp ha, Set.mem_singleton_iff.mp hb]
      rfl
    · intro hw
      exact ⟨[c], rfl, cs, rfl, (Set.mem_singleton_iff.mp hw).symm⟩

theorem mem_matches'_cls (l : List Char) (w : List Char) :
    w ∈ (cls l).matches' ↔ ∃ c ∈ l, w = [c] := by
  induction l with
  | nil => simp [cls]
  | cons c cs ih =>
    simp only [cls, matches'_add, Language.mem_add, ih, matches'_char]
    constructor
    · rintro (h | ⟨d, hd, rfl⟩)
      · exact ⟨c, List.mem_cons_self _ _, Set.mem_singleton_iff.mp h⟩
      · exact ⟨d, List.mem_cons_of_mem _ hd, rfl⟩
    · rintro ⟨d, hd, rfl⟩
      rcases List.mem_cons.mp hd with rfl | hd
      · exact Or.inl rfl
      · exact Or.inr ⟨d, hd, rfl⟩

theorem char_eq_ofNat (c : Char) : c = Char.ofNat c.toNat := by
  simp

theorem mem_alnumChars (c : Char) : c ∈ alnumChars ↔ isAlnum c = true := by
  have hl : alnumChars = "0123456789abcdefghijklmnopqrstuvwxyz".toList := by decide
  constructor
  · intro h
    rw [hl] at h
    simp at h
    rcases h with h | h | h | h | h | h | h | h | h | h | h | h | h | h | h | h | h | h | h | h | h | h | h | h | h | h | h | h | h | h | h | h | h | h | h | h <;> subst h <;> decide
  · intro h
    have hc := char_eq_ofNat c
    have hr : (48 ≤ c.toNat ∧ c.toNat ≤ 57) ∨ (97 ≤ c.toNat ∧ c.toNat ≤ 122) := by
      simp only [isAlnum, Char.isDigit, Char.isLower, Bool.or_eq_true, Bool.and_eq_true,
        decide_eq_true_eq, UInt32.le_def, ge_iff_le] at h
      exact h
    rw [hl, hc]
    rcases hr with ⟨h1, h2⟩ | ⟨h1, h2⟩ <;> interval_cases c.toNat <;> decide

theorem mem_plus1_alnum (w : List Char) :
    w ∈ (plus1 (cls alnumChars)).matches' ↔ w ≠ [] ∧ ∀ c ∈ w, isAlnum c = true := by
  simp only [plus1, matches'_mul, matches'_star, Language.mem_mul, Language.mem_kstar]
  constructor
  · rintro ⟨a, ha, b, ⟨L, rfl, hL⟩, rfl⟩
    obtain ⟨c, hc, rfl⟩ := (mem_matches'_cls _ _).mp ha
    refine ⟨by simp, ?_⟩
    intro d hd
    simp only [List.singleton_append, List.mem_cons, List.mem_flatten] at hd
    rcases hd with rfl | ⟨y, hy, hdy⟩
    · exact (mem_alnumChars _).mp hc
    · obtain ⟨e, he, rfl⟩ := (mem_matches'_cls _ _).mp (hL y hy)
      rw [List.mem_singleton.mp hdy]
      exact (mem_alnumChars _).mp he
  · rintro ⟨hne, hall⟩
    cases w with
    | nil => exact absurd rfl hne
    | cons a t =>
      refine ⟨[a], (mem_matches'_cls _ _).mpr ⟨a, (mem_alnumChars _).mpr (hall a (List.mem_cons_self _ _)), rfl⟩,
        t, ⟨t.map (fun c => [c]), ?_, ?_⟩, rfl⟩
      · clear hne hall
        induction t with
        | nil => rfl
        | cons b t ih => simp only [List.map_cons, List.flatten_cons, List.singleton_append, List.cons.injEq, true_and]; exact ih
      · intro y hy
        obtain ⟨c, hc, rfl⟩ := List.mem_map.mp hy
        exact (mem_matches'_cls _ _).mpr ⟨c, (mem_alnumChars _).mpr (hall c (List.mem_cons_of_mem _ hc)), rfl⟩

theorem dashSep_append (u rest : List Char) (hne : u ≠ []) (hall : ∀ c ∈ u, isAlnum c = true)
    (hrest : rest = [] ∨ ∃ r, rest = '-' :: r ∧ dashSep r = true) :
    dashSep (u ++ rest) = true := by
  induction u with
  | nil => exact absurd rfl hne
  | cons a u ih =>
    have ha := hall a (List.mem_cons_self _ _)
    cases u with
    | nil =>
      rcases hrest with rfl | ⟨r, rfl, hr⟩
      · simpa [dashSep] using ha
      · simp [dashSep, ha, hr]
    | cons b u =>
      have hb := hall b (List.mem_cons_of_mem _ (List.mem_cons_self _ _))
      have hbd : b ≠ '-' := by
        rintro rfl
        exact absurd hb (by decide)
      have := ih (by simp) (fun c hc => hall c (List.mem_cons_of_mem _ hc))
      simp only [List.cons_append, dashSep, ha, hbd, if_false, Bool.true_and] 
      simpa using this

theorem dashSep_of_star (v : List Char)
    (hv : v ∈ (star (char '-' * plus1 (cls alnumChars))).matches') :
    v = [] ∨ ∃ r, v = '-' :: r ∧ dashSep r = true := by
  rw [matches'_star, Language.mem_kstar] at hv
  obtain ⟨L, rfl, hL⟩ := hv
  induction L with
  | nil => exact Or.inl rfl
  | cons x L ih =>
    right
    have hx := hL x (List.mem_cons_self _ _)
    rw [matches'_mul, Language.mem_mul] at hx
    obtain ⟨d, hd, a, ha, rfl⟩ := hx
    rw [matches'_char] at hd
    rw [Set.mem_singleton_iff.mp hd]
    obtain ⟨hne, hall⟩ := (mem_plus1_alnum a).mp ha
    refine ⟨a ++ L.flatten, by simp, ?_⟩
    exact dashSep_append a _ hne hall (ih (fun y hy => hL y (List.mem_cons_of_mem _ hy)))

theorem cons_dash_mem_star (u v : List Char) (hu : u ∈ (plus1 (cls alnumChars)).matches')
    (hv : v ∈ (star (char '-' * plus1 (cls alnumChars))).matches') :
    '-' :: u ++ v ∈ (star (char '-' * plus1 (cls alnumChars))).matches' := by
  rw [matches'_star, Language.mem_kstar] at hv ⊢
  obtain ⟨L, rfl, hL⟩ := hv
  refine ⟨('-' :: u) :: L, by simp, ?_⟩
  intro y hy
  rcases List.mem_cons.mp hy with rfl | hy
  · rw [matches'_mul, Language.mem_mul]
    exact ⟨['-'], Set.mem_singleton _, u, hu, rfl⟩
  · exact hL y hy

theorem matches_of_dashSep (w : List Char) (h : dashSep w = true) :
    w ∈ containerBody.matches' := by
  induction w using dashSep.induct with
  | case1 => simp [dashSep] at h
  | case2 a =>
    simp only [dashSep] at h
    rw [containerBody, matches'_mul, Language.mem_mul]
    exact ⟨[a], (mem_plus1_alnum _).mpr ⟨by simp, by simpa using h⟩, [],
      by rw [matches'_star]; exact Language.nil_mem_kstar _, by simp⟩
  | case3 a b t iht ihbt =>
    simp only [dashSep, Bool.and_eq_true] at h
    obtain ⟨ha, h⟩ := h
    by_cases hb : b = '-'
    · subst hb
      simp only [if_true] at h
      have := iht h
      rw [containerBody, matches'_mul, Language.mem_mul] at this ⊢
      obtain ⟨u, hu, v, hv, rfl⟩ := this
      exact ⟨[a], (mem_plus1_alnum _).mpr ⟨by simp, by simpa using ha⟩, '-' :: u ++ v,
        cons_dash_mem_star u v hu hv, by simp⟩
    · simp only [hb, if_false] at h
      have := ihbt h
      rw [containerBody, matches'_mul, Language.mem_mul] at this ⊢
      obtain ⟨u, hu, v, hv, huv⟩ := this
      obtain ⟨hne, hall⟩ := (mem_plus1_alnum u).mp hu
      refine ⟨a :: u, (mem_plus1_alnum _).mpr ⟨by simp, ?_⟩, v, hv, by simp [huv]⟩
      intro c hc
      rcases List.mem_cons.mp hc with rfl | hc
      · exact ha
      · exact hall c hc

theorem dashSep_iff_matches (w : List Char) :
    dashSep w = true ↔ w ∈ containerBody.matches' := by
  constructor
  · exact matches_of_dashSep w
  · intro h
    rw [containerBody, matches'_mul, Language.mem_mul] at h
    obtain ⟨u, hu, v, hv, rfl⟩ := h
    obtain ⟨hne, hall⟩ := (mem_plus1_alnum u).mp hu
    exact dashSep_append u v hne hall (dashSep_of_star v hv)

theorem ne_dash_of_isAlnum (c : Char) (h : isAlnum c = true) : ¬ '-' = c := by
  rintro rfl
  exact absurd h (by decide)

theorem dashSep_iff_props (w : List Char) :
    dashSep w = true ↔
      w ≠ [] ∧ (∀ c ∈ w, isAlnum c = true ∨ c = '-') ∧ ¬ ['-'] <+: w ∧ ¬ ['-'] <:+ w ∧
        ¬ ['-', '-'] <:+: w := by
  induction w using dashSep.induct with
  | case1 => simp [dashSep]
  | case2 a =>
    simp only [dashSep, List.suffix_cons_iff, List.infix_cons_iff, List.cons_prefix_cons, List.nil_prefix, List.mem_singleton, forall_eq, ne_eq, List.cons_ne_nil, not_false_eq_true, true_and, and_true, List.cons.injEq, List.suffix_nil, List.infix_nil, List.prefix_nil, and_false, or_false, false_or]
    have := ne_dash_of_isAlnum a
    have e : a = '-' ↔ '-' = a := eq_comm
    tauto
  | case3 a b t iht ihbt =>
    have ka := ne_dash_of_isAlnum a
    have ea : a = '-' ↔ '-' = a := eq_comm
    have et : [] = t ↔ t = [] := eq_comm
    by_cases hb : b = '-'
    · subst hb
      simp only [dashSep, if_true, Bool.and_eq_true, iht]
      clear iht ihbt
      simp only [List.suffix_cons_iff, List.infix_cons_iff, List.cons_prefix_cons, List.nil_prefix, List.mem_cons, ne_eq, List.cons_ne_nil, not_false_eq_true, true_and, and_true, List.cons.injEq, List.suffix_nil, List.infix_nil, List.prefix_nil, and_false, or_false, false_or, forall_eq_or_imp, or_true, et, not_or, ea]
      by_cases h1 : isAlnum a = true
      · simp only [h1, ka h1, true_and, true_or, not_false_eq_true, false_and, false_or]
        tauto
      · simp only [h1, false_and, false_or]
        tauto
    · have hb2 : ¬ '-' = b := fun h => hb h.symm
      simp only [dashSep, hb, if_false, Bool.and_eq_true, ihbt]
      clear iht ihbt
      simp only [List.suffix_cons_iff, List.infix_cons_iff, List.cons_prefix_cons, List.nil_prefix, List.mem_cons, ne_eq, List.cons_ne_nil, not_false_eq_true, true_and, and_true, List.cons.injEq, List.suffix_nil, List.infix_nil, List.prefix_nil, and_false, or_false, false_or, forall_eq_or_imp, et, hb, hb2, false_and, not_or, ea]
      by_cases h1 : isAlnum a = true
      · simp only [h1, ka h1, true_and, true_or, not_false_eq_true, false_and, false_or]
      · simp only [h1, false_and, false_or]
        tauto

end Markers

/-! ## Properties of the validation markers -/

theorem accepts_two_literals (a b s : String) :
    (Pattern.mk true (lit a.toList + lit b.toList) true).accepts s = true ↔ s = a ∨ s = b := by
  simp only [Pattern.accepts, RegularExpression.rmatch_iff_matches',
    RegularExpression.matches'_add, Language.mem_add, matches'_lit, Set.mem_singleton_iff]
  constructor
  · rintro (h | h)
    · exact Or.inl (String.ext h)
    · exact Or.inr (String.ext h)
  · rintro (h | h)
    · exact Or.inl (congrArg String.toList h)
    · exact Or.inr (congrArg String.toList h)

/-- C5: a string satisfies the pattern `^(Managed|Unmanaged)$` on
`ImageRegistryConfigStorage.ManagementState` exactly when it equals the constant
`StorageManagementStateManaged` or the constant
`StorageManagementStateUnmanaged`; `"Removed"`, the empty string, other casings
and padded forms are not accepted. -/
theorem storageManagementState_pattern_iff :
    (∀ s : String, storageManagementStatePattern.accepts s = true ↔
      (s = StorageManagementStateManaged ∨ s = StorageManagementStateUnmanaged)) ∧
    storageManagementStatePattern.accepts "Removed" = false ∧
    storageManagementStatePattern.accepts "" = false ∧
    storageManagementStatePattern.accepts "managed" = false ∧
    storageManagementStatePattern.accepts "UNMANAGED" = false ∧
    storageManagementStatePattern.accepts " Managed" = false ∧
    storageManagementStatePattern.accepts "Managed " = false ∧
    storageManagementStatePattern.accepts "Managed\n" = false := by
  have key : ∀ s : String, storageManagementStatePattern.accepts s = true ↔
      (s = StorageManagementStateManaged ∨ s = StorageManagementStateUnmanaged) :=
    fun s => accepts_two_literals "Managed" "Unmanaged" s
  refine ⟨key, ?_, ?_, ?_, ?_, ?_, ?_, ?_⟩ <;>
  · rw [← Bool.not_eq_true, key]
    decide

/-- C6: a string satisfies the pattern `^(RollingUpdate|Recreate)$` on
`ImageRegistrySpec.RolloutStrategy` exactly when it is `"RollingUpdate"` or
`"Recreate"`. -/
theorem rolloutStrategy_pattern_iff (s : String) :
    rolloutStrategyPattern.accepts s = true ↔ (s = "RollingUpdate" ∨ s = "Recreate") :=
  accepts_two_literals "RollingUpdate" "Recreate" s

/-- C10: a string satisfies the three markers on
`ImageRegistryConfigStorageAzure.Container` (`MinLength=3`, `MaxLength=63`,
`Pattern=^[0-9a-z]+(-[0-9a-z]+)*$`) exactly when it has between 3 and 63
characters, each of them a digit, a lowercase ASCII letter or `-`, it neither
starts nor ends with `-`, and it has no two `-` in a row. -/
theorem azureContainer_markers_iff (c : String) :
    azureContainerValid c = true ↔
      ((3 ≤ c.length ∧ c.length ≤ 63) ∧
        (∀ ch ∈ c.toList, ch.isDigit = true ∨ ch.isLower = true ∨ ch = '-') ∧
        ¬ ['-'] <+: c.toList ∧ ¬ ['-'] <:+ c.toList ∧ ¬ ['-', '-'] <:+: c.toList) := by
  have hlen : c.length = c.toList.length := rfl
  simp only [azureContainerValid, azureContainerMinLength, azureContainerMaxLength,
    azureContainerPattern, Pattern.accepts, Bool.and_eq_true, decide_eq_true_eq,
    RegularExpression.rmatch_iff_matches', ← dashSep_iff_matches, dashSep_iff_props, isAlnum,
    Bool.or_eq_true, or_assoc]
  constructor
  · rintro ⟨⟨h1, h2⟩, _, h3⟩
    exact ⟨⟨h1, h2⟩, h3⟩
  · rintro ⟨⟨h1, h2⟩, h3⟩
    refine ⟨⟨h1, h2⟩, ?_, h3⟩
    intro h
    rw [hlen, h] at h1
    simp at h1

/-! ## Storage backends -/

theorem backendNames_sorted :
    List.Sorted (fun a b : String => a < b)
      ["azure", "emptyDir", "gcs", "ibmcos", "pvc", "s3", "swift"] := by
  simp only [List.Sorted, List.pairwise_cons, List.mem_cons, List.mem_singleton,
    forall_eq_or_imp, forall_eq, List.not_mem_nil, false_implies, implies_true,
    List.Pairwise.nil, and_true, String.lt_iff_toList_lt]
  decide

theorem populatedBackends_sorted {X : External} (s : ImageRegistryConfigStorage X) :
    List.Sorted (fun a b : String => a < b) (populatedBackends s) := by
  have hsub : (populatedBackends s).Sublist
      ((backendTable s).map (fun e => e.1)) :=
    List.Sublist.map _ (List.filter_sublist _)
  exact List.Pairwise.sublist hsub backendNames_sorted

theorem populatedBackends_perm {X : External} (s : ImageRegistryConfigStorage X) :
    (populatedBackends s).Perm (populatedFields s) := by
  simp only [populatedBackends, backendTable, populatedFields]
  generalize s.Azure.isSome = a
  generalize s.EmptyDir.isSome = e
  generalize s.GCS.isSome = g
  generalize s.IBMCOS.isSome = i
  generalize s.PVC.isSome = p
  generalize s.S3.isSome = s3
  generalize s.Swift.isSome = sw
  cases a <;> cases e <;> cases g <;> cases i <;> cases p <;> cases s3 <;> cases sw <;> decide

/-! ## Validator -/

theorem validate_eq {X : External} (durationRule : X.Duration → X.Duration × List Advisory)
    (spec : ImageRegistrySpec X) (storageManaged : Option Bool) :
    (fatalErrors spec storageManaged = [] ∧
      ∃ out, validate durationRule spec storageManaged = .ok out) ∨
    (fatalErrors spec storageManaged ≠ [] ∧
      validate durationRule spec storageManaged = .error (fatalErrors spec storageManaged)) := by
  unfold validate fatalErrors storageErrors
  cases hn : normalizeStorage spec.Storage storageManaged with
  | error e =>
    right
    simp
  | ok out =>
    obtain ⟨storage, advisories⟩ := out
    simp only [List.append_nil]
    cases hl : enumErrors spec ++ (replicaErrors spec ++ routeErrors spec.Routes) with
    | nil =>
      left
      simp [hl]
    | cons e es =>
      right
      simp [hl]

theorem validate_error_mem {X : External}
    (durationRule : X.Duration → X.Duration × List Advisory)
    (spec : ImageRegistrySpec X) (storageManaged : Option Bool) (e : FatalError) :
    (∃ errs, validate durationRule spec storageManaged = .error errs ∧ e ∈ errs) ↔
      e ∈ fatalErrors spec storageManaged := by
  rcases validate_eq durationRule spec storageManaged with ⟨h0, out, hout⟩ | ⟨hne, herr⟩
  · simp [h0, hout]
  · simp [herr]

/-! ## JSON encoding of the storage configuration -/

theorem sampleCodec_lawful : sampleCodec.Lawful := by
  refine ⟨?_, ?_⟩ <;> intro x <;> rfl

/-- Counterexample to C1.  Decoding the document with the single key
"EmptyDir" populates `EmptyDir` although the key "emptyDir" is not present: the
decoder matches keys up to case.  And the Go string with the bytes 61 FF 62 is
not valid UTF-8: it is written as the text a, U+FFFD, b, which reads back as
the bytes 61 EF BF BD 62, so a value holding it does not survive the round
trip. -/
theorem storage_json_counterexample :
    (decodeStorage sampleCodec (JSON.obj [("EmptyDir", JSON.obj [])]) =
        some { EmptyDir := some {} } ∧
      (JSON.obj [("EmptyDir", JSON.obj [])]).hasKey "emptyDir" = false ∧
      ¬ ∀ (j : JSON) (t : ImageRegistryConfigStorage sampleExternal),
          decodeStorage sampleCodec j = some t →
            t.EmptyDir.isSome = true → j.hasKey "emptyDir" = true) ∧
    (marshalString [0x61, 0xFF, 0x62] = String.mk ['a', Char.ofNat 0xFFFD, 'b'] ∧
      goBytes (marshalString [0x61, 0xFF, 0x62]) = [0x61, 0xEF, 0xBF, 0xBD, 0x62] ∧
      goBytes (marshalString [0x61, 0xFF, 0x62]) ≠ [0x61, 0xFF, 0x62]) := by
  refine ⟨⟨rfl, rfl, ?_⟩, by decide, by decide, by decide⟩
  intro h
  exact absurd (h (JSON.obj [("EmptyDir", JSON.obj [])]) { EmptyDir := some {} } rfl rfl)
    (by decide)

/-- C1, amended: for a storage value whose strings are valid UTF-8 (every value
of the model: a `String` field stands for the Go string with the UTF-8 bytes of
its text, which the encoder writes unchanged), the JSON encoding decodes to the
same value; for each of the seven backends the key is present in the encoding
exactly when the pointer is non-nil; a non-nil `EmptyDir` is written as a
present empty object, which decodes to a non-nil `EmptyDir`; a document without
members decodes to a value without backends; and decoding any document
populates a backend only if the document has a key equal to the backend's key
up to case. -/
theorem storage_json_roundtrip {X : External} (c : ExternalCodec X) (hc : c.Lawful)
    (s : ImageRegistryConfigStorage X) :
    decodeStorage c (encodeStorage c s) = some s ∧
    (∀ text : String, marshalString (goBytes text) = text) ∧
    ((encodeStorage c s).hasKey "emptyDir" = s.EmptyDir.isSome ∧
      (encodeStorage c s).hasKey "s3" = s.S3.isSome ∧
      (encodeStorage c s).hasKey "gcs" = s.GCS.isSome ∧
      (encodeStorage c s).hasKey "swift" = s.Swift.isSome ∧
      (encodeStorage c s).hasKey "pvc" = s.PVC.isSome ∧
      (encodeStorage c s).hasKey "azure" = s.Azure.isSome ∧
      (encodeStorage c s).hasKey "ibmcos" = s.IBMCOS.isSome) ∧
    (s.EmptyDir.isSome = true → (encodeStorage c s).member "emptyDir" = some (JSON.obj [])) ∧
    decodeStorage c (JSON.obj [("emptyDir", JSON.obj [])]) = some { EmptyDir := some {} } ∧
    decodeStorage c (JSON.obj []) = some {} ∧
    (∀ (j : JSON) (t : ImageRegistryConfigStorage X), decodeStorage c j = some t →
      (t.EmptyDir.isSome = true → j.hasKeyFold "emptyDir" = true) ∧
      (t.S3.isSome = true → j.hasKeyFold "s3" = true) ∧
      (t.GCS.isSome = true → j.hasKeyFold "gcs" = true) ∧
      (t.Swift.isSome = true → j.hasKeyFold "swift" = true) ∧
      (t.PVC.isSome = true → j.hasKeyFold "pvc" = true) ∧
      (t.Azure.isSome = true → j.hasKeyFold "azure" = true) ∧
      (t.IBMCOS.isSome = true → j.hasKeyFold "ibmcos" = true)) := by
  refine ⟨storage_roundtrip c hc s, marshalString_goBytes, encodeStorage_hasKey c s, ?_, rfl,
    rfl, fun j t h => decodeStorage_populated c j t h⟩
  intro h
  cases he : s.EmptyDir with
  | none => simp [he] at h
  | some e =>
    simp [JSON.member, encodeStorage, lookup_emitPointer_self, he, encodeEmptyDir]

/-- Witness for C1: the sample codec is lawful, and the sample storage value,
with an empty directory and an S3 backend fronted by CloudFront, survives the
round trip. -/
theorem storage_json_roundtrip_witness :
    sampleCodec.Lawful ∧
    decodeStorage sampleCodec (encodeStorage sampleCodec sampleStorage) = some sampleStorage ∧
    (encodeStorage sampleCodec sampleStorage).hasKey "emptyDir" = true ∧
    (encodeStorage sampleCodec sampleStorage).hasKey "gcs" = false :=
  ⟨sampleCodec_lawful,
    (storage_json_roundtrip sampleCodec sampleCodec_lawful sampleStorage).1,
    (storage_json_roundtrip sampleCodec sampleCodec_lawful sampleStorage).2.2.1.1,
    (storage_json_roundtrip sampleCodec sampleCodec_lawful sampleStorage).2.2.1.2.2.1⟩

/-! ## Exclusivity of the storage backends -/

/-- C2: when two or more backends are populated, the storage normaliser fails
with `MultipleBackendsConfigured`, validation fails with a list of errors that
contains it, and the names it carries are exactly the populated backends, in
alphabetical order. -/
theorem multipleBackends_rejected {X : External}
    (durationRule : X.Duration → X.Duration × List Advisory) (spec : ImageRegistrySpec X)
    (storageManaged : Option Bool) (h : 2 ≤ (populatedFields spec.Storage).length) :
    ∃ names : List String,
      normalizeStorage spec.Storage storageManaged =
        .error (FatalError.MultipleBackendsConfigured names) ∧
      (∃ errs, validate durationRule spec storageManaged = .error errs ∧
        FatalError.MultipleBackendsConfigured names ∈ errs) ∧
      names.Perm (populatedFields spec.Storage) ∧
      List.Sorted (fun a b : String => a < b) names := by
  have hlen : 2 ≤ (populatedBackends spec.Storage).length := by
    rw [(populatedBackends_perm spec.Storage).length_eq]
    exact h
  have hn : normalizeStorage spec.Storage storageManaged =
      .error (FatalError.MultipleBackendsConfigured (populatedBackends spec.Storage)) := by
    simp [normalizeStorage, hlen]
  refine ⟨populatedBackends spec.Storage, hn, ?_, populatedBackends_perm _,
    populatedBackends_sorted _⟩
  rw [validate_error_mem]
  simp [fatalErrors, storageErrors, hn]

/-- Witness for C2: with the empty directory and S3 both populated, the error
names `emptyDir` and `s3`. -/
theorem multipleBackends_rejected_witness :
    2 ≤ (populatedFields (sampleSpec twoBackends [] 1).Storage).length ∧
    normalizeStorage twoBackends none =
      .error (FatalError.MultipleBackendsConfigured ["emptyDir", "s3"]) ∧
    ∃ names : List String,
      normalizeStorage (sampleSpec twoBackends [] 1).Storage none =
        .error (FatalError.MultipleBackendsConfigured names) ∧
      (∃ errs, validate keepDuration (sampleSpec twoBackends [] 1) none = .error errs ∧
        FatalError.MultipleBackendsConfigured names ∈ errs) ∧
      names.Perm (populatedFields (sampleSpec twoBackends [] 1).Storage) ∧
      List.Sorted (fun a b : String => a < b) names :=
  ⟨by decide, by rfl,
    multipleBackends_rejected keepDuration (sampleSpec twoBackends [] 1) none (by decide)⟩

/-- Counterexample to C3: a storage value with both `EmptyDir` and `S3`
non-nil is a value of the type, so it is not true that every value has at most
one backend populated. -/
theorem storage_exclusivity_counterexample :
    populatedFields twoBackends = ["emptyDir", "s3"] ∧
    ¬ ∀ s : ImageRegistryConfigStorage sampleExternal, (populatedFields s).length ≤ 1 := by
  refine ⟨by decide, ?_⟩
  intro h
  exact absurd (h twoBackends) (by decide)

/-- C3, amended: the type does not limit how many backends are populated.  The
seven backend fields are independent optional pointers: whatever is chosen for
each of them, nil or not, there is a value of the type with exactly these
fields; the number of populated backends is at most seven, and it is zero in
the zero value. -/
theorem storage_backends_independent {X : External}
    (emptyDir : Option ImageRegistryConfigStorageEmptyDir)
    (s3 : Option (ImageRegistryConfigStorageS3 X))
    (gcs : Option ImageRegistryConfigStorageGCS)
    (swift : Option ImageRegistryConfigStorageSwift)
    (pvc : Option ImageRegistryConfigStoragePVC)
    (azure : Option ImageRegistryConfigStorageAzure)
    (ibmcos : Option ImageRegistryConfigStorageIBMCOS) :
    (∃ s : ImageRegistryConfigStorage X,
      s.EmptyDir = emptyDir ∧ s.S3 = s3 ∧ s.GCS = gcs ∧ s.Swift = swift ∧ s.PVC = pvc ∧
      s.Azure = azure ∧ s.IBMCOS = ibmcos ∧
      (populatedFields s).length =
        emptyDir.toList.length + s3.toList.length + gcs.toList.length + swift.toList.length +
          pvc.toList.length + azure.toList.length + ibmcos.toList.length) ∧
    (∀ s : ImageRegistryConfigStorage X, (populatedFields s).length ≤ 7) ∧
    populatedFields ({} : ImageRegistryConfigStorage X) = [] := by
  refine ⟨⟨{ EmptyDir := emptyDir, S3 := s3, GCS := gcs, Swift := swift, PVC := pvc,
             Azure := azure, IBMCOS := ibmcos }, rfl, rfl, rfl, rfl, rfl, rfl, rfl, ?_⟩, ?_, rfl⟩
  · cases emptyDir <;> cases s3 <;> cases gcs <;> cases swift <;> cases pvc <;> cases azure <;>
      cases ibmcos <;> rfl
  · intro s
    simp only [populatedFields]
    generalize s.Azure.isSome = a
    generalize s.EmptyDir.isSome = e
    generalize s.GCS.isSome = g
    generalize s.IBMCOS.isSome = i
    generalize s.PVC.isSome = p
    generalize s.S3.isSome = s3
    generalize s.Swift.isSome = sw
    cases a <;> cases e <;> cases g <;> cases i <;> cases p <;> cases s3 <;> cases sw <;> decide

/-! ## The deprecated status flag -/

/-- Counterexample to C4: a status with `StorageManaged = true` and
`Storage.ManagementState = "Unmanaged"` is a value of the type, so the flag is
not tied to the management state. -/
theorem storageManaged_counterexample :
    inconsistentStatus.StorageManaged = true ∧
    inconsistentStatus.Storage.ManagementState = "Unmanaged" ∧
    ¬ ∀ st : ImageRegistryStatus sampleExternal,
      (st.StorageManaged = true ↔ st.Storage.ManagementState = StorageManagementStateManaged) := by
  refine ⟨rfl, rfl, ?_⟩
  intro h
  exact absurd ((h inconsistentStatus).mp rfl) (by decide)

/-- C4, amended: `StorageManaged` is a field of its own.  For every boolean and
every storage value there is an `ImageRegistryStatus` carrying both, so the
flag can be set independently of `Storage.ManagementState`; in the zero value
the flag is false and the management state is empty. -/
theorem storageManaged_independent {X : External} (operatorStatus : X.OperatorStatus)
    (flag : Bool) (storage : ImageRegistryConfigStorage X) :
    (∃ st : ImageRegistryStatus X,
      st.OperatorStatus = operatorStatus ∧ st.StorageManaged = flag ∧ st.Storage = storage) ∧
    ({ OperatorStatus := operatorStatus } : ImageRegistryStatus X).StorageManaged = false ∧
    ({ OperatorStatus := operatorStatus } : ImageRegistryStatus X).Storage.ManagementState = "" :=
  ⟨⟨{ OperatorStatus := operatorStatus, StorageManaged := flag, Storage := storage },
    rfl, rfl, rfl⟩, rfl, rfl⟩

/-! ## Cross-field checks -/

/-- C7: with the `emptyDir` backend populated, validation fails with a
`ReplicasExceedEphemeralLimit` error whenever `replicas` is greater than 1;
with `replicas = 1` that error is never reported, and a configuration that is
otherwise well formed (management states and rollout strategy within their
enums or not given, no second backend, distinct route names) is accepted. -/
theorem emptyDir_replicas {X : External}
    (durationRule : X.Duration → X.Duration × List Advisory) (spec : ImageRegistrySpec X)
    (storageManaged : Option Bool) (hEmptyDir : spec.Storage.EmptyDir.isSome = true) :
    (1 < spec.Replicas →
      ∃ errs, validate durationRule spec storageManaged = .error errs ∧
        FatalError.ReplicasExceedEphemeralLimit ∈ errs) ∧
    (spec.Replicas = 1 →
      (∀ errs, validate durationRule spec storageManaged = .error errs →
        FatalError.ReplicasExceedEphemeralLimit ∉ errs) ∧
      (spec.ManagementState ∈ ["", "Managed", "Unmanaged", "Removed"] →
        spec.Storage.ManagementState ∈ ["", "Managed", "Unmanaged"] →
        spec.RolloutStrategy ∈ ["", "RollingUpdate", "Recreate"] →
        populatedFields spec.Storage = ["emptyDir"] →
        (spec.Routes.map (fun r => r.Name)).Nodup →
        ∃ out, validate durationRule spec storageManaged = .ok out)) := by
  constructor
  · intro h
    rw [validate_error_mem]
    simp [fatalErrors, replicaErrors, hEmptyDir, h]
  · intro h1
    have hrep : replicaErrors spec = [] := by simp [replicaErrors, h1]
    constructor
    · intro errs herr hmem
      have hm := (validate_error_mem durationRule spec storageManaged _).mp ⟨errs, herr, hmem⟩
      simp only [fatalErrors, hrep, List.nil_append, List.mem_append] at hm
      rcases hm with (hm | hm) | hm
      · simp only [enumErrors] at hm
        split_ifs at hm <;> simp at hm
      · simp only [storageErrors, normalizeStorage] at hm
        split_ifs at hm <;> simp at hm
      · simp only [routeErrors] at hm
        split_ifs at hm <;> simp at hm
    · intro hstate hstorage hrollout hpop hroutes
      have henum : enumErrors spec = [] := by
        simp only [enumErrors, StorageManagementStateManaged, StorageManagementStateUnmanaged]
        rw [if_pos hstate, if_pos hstorage, if_pos hrollout]
        rfl
      have hlen : ¬ 2 ≤ (populatedBackends spec.Storage).length := by
        rw [(populatedBackends_perm spec.Storage).length_eq, hpop]
        decide
      have hfatal : fatalErrors spec storageManaged = [] := by
        simp [fatalErrors, henum, hrep, storageErrors, normalizeStorage, hlen, routeErrors,
          hroutes]
      rcases validate_eq durationRule spec storageManaged with ⟨_, hout⟩ | ⟨hne, _⟩
      · exact hout
      · exact absurd hfatal hne

/-- Witness for C7: `emptyDir` with two replicas is rejected with
`ReplicasExceedEphemeralLimit`, `emptyDir` with one replica is accepted. -/
theorem emptyDir_replicas_witness :
    (sampleSpec emptyDirOnly [] 2).Storage.EmptyDir.isSome = true ∧
    validate keepDuration (sampleSpec emptyDirOnly [] 2) none =
      .error [FatalError.ReplicasExceedEphemeralLimit] ∧
    (∃ errs, validate keepDuration (sampleSpec emptyDirOnly [] 2) none = .error errs ∧
      FatalError.ReplicasExceedEphemeralLimit ∈ errs) ∧
    (∃ out, validate keepDuration (sampleSpec emptyDirOnly [] 1) none = .ok out) :=
  ⟨rfl, by rfl,
    (emptyDir_replicas keepDuration (sampleSpec emptyDirOnly [] 2) none rfl).1 (by decide),
    ((emptyDir_replicas keepDuration (sampleSpec emptyDirOnly [] 1) none rfl).2 rfl).2
      (by decide) (by decide) (by decide) (by decide) (by decide)⟩

/-- C9: validation fails with a `DuplicateRouteName` error exactly when two
routes have the same name; when the names are pairwise distinct the route
check reports nothing.  Routes named "public", "public" are rejected, routes
named "public", "internal" are accepted. -/
theorem route_names_unique {X : External}
    (durationRule : X.Duration → X.Duration × List Advisory) (spec : ImageRegistrySpec X)
    (storageManaged : Option Bool) :
    ((∃ errs, validate durationRule spec storageManaged = .error errs ∧
        FatalError.DuplicateRouteName ∈ errs) ↔
      ¬ (spec.Routes.map (fun r => r.Name)).Nodup) ∧
    (routeErrors spec.Routes = [] ↔ (spec.Routes.map (fun r => r.Name)).Nodup) ∧
    routeErrors [{ Name := "public" }, { Name := "public" }] =
      [FatalError.DuplicateRouteName] ∧
    routeErrors [{ Name := "public" }, { Name := "internal" }] = [] ∧
    validate keepDuration
        (sampleSpec {} [{ Name := "public" }, { Name := "public" }] 1) none =
      .error [FatalError.DuplicateRouteName] ∧
    (∃ out, validate keepDuration
        (sampleSpec {} [{ Name := "public" }, { Name := "internal" }] 1) none = .ok out) := by
  refine ⟨?_, ?_, by decide, by decide, by rfl, ⟨_, rfl⟩⟩
  · rw [validate_error_mem]
    simp only [fatalErrors, List.mem_append]
    constructor
    · rintro ((hm | hm) | hm | hm)
      · simp only [enumErrors] at hm
        split_ifs at hm <;> simp at hm
      · simp only [storageErrors, normalizeStorage] at hm
        split_ifs at hm <;> simp at hm
      · simp only [replicaErrors] at hm
        split_ifs at hm <;> simp at hm
      · simp only [routeErrors] at hm
        split_ifs at hm with hnd
        · simp at hm
        · exact hnd
    · intro hnd
      right; right
      simp [routeErrors, hnd]
  · simp only [routeErrors]
    split_ifs with hnd <;> simp [hnd]

/-! ## Migration of the deprecated flag -/

/-- Counterexample to C8: with `storageManaged = true` and an empty
`storage.managementState`, an input that populates both `emptyDir` and `s3` is
not normalised without a fatal error: the normaliser fails with
`MultipleBackendsConfigured`. -/
theorem deprecated_flag_counterexample :
    twoBackends.ManagementState = "" ∧
    normalizeStorage twoBackends (some true) =
      .error (FatalError.MultipleBackendsConfigured ["emptyDir", "s3"]) ∧
    ¬ ∃ out, normalizeStorage twoBackends (some true) = .ok out := by
  refine ⟨rfl, by rfl, ?_⟩
  rintro ⟨out, h⟩
  have h2 : normalizeStorage twoBackends (some true) =
      .error (FatalError.MultipleBackendsConfigured ["emptyDir", "s3"]) := by rfl
  rw [h2] at h
  cases h

/-- C8, amended: for every input with at most one backend populated and
`storageManaged = true`, normalisation with an empty `storage.managementState`
yields `Managed` with no fatal error and no advisory; an explicit
`storage.managementState` is kept with no fatal error, with no advisory when it
is `Managed` and with exactly one `DeprecatedFieldConflict` advisory when it
disagrees with the flag. -/
theorem deprecated_flag_migration {X : External} (raw : ImageRegistryConfigStorage X)
    (h : (populatedFields raw).length ≤ 1) :
    (raw.ManagementState = "" →
      normalizeStorage raw (some true) =
        .ok ({ raw with ManagementState := StorageManagementStateManaged }, [])) ∧
    (raw.ManagementState ≠ "" → raw.ManagementState = StorageManagementStateManaged →
      normalizeStorage raw (some true) = .ok (raw, [])) ∧
    (raw.ManagementState ≠ "" → raw.ManagementState ≠ StorageManagementStateManaged →
      normalizeStorage raw (some true) = .ok (raw, [Advisory.DeprecatedFieldConflict])) := by
  have hlen : ¬ 2 ≤ (populatedBackends raw).length := by
    rw [(populatedBackends_perm raw).length_eq]
    omega
  refine ⟨?_, ?_, ?_⟩
  · intro he
    simp [normalizeStorage, hlen, migrateManagementState, he]
  · intro hne hm
    have hmig : migrateManagementState raw.ManagementState (some true) =
        (raw.ManagementState, []) := by
      simp [migrateManagementState, hne, hm]
    simp [normalizeStorage, hlen, hmig]
  · intro hne hm
    have hmig : migrateManagementState raw.ManagementState (some true) =
        (raw.ManagementState, [Advisory.DeprecatedFieldConflict]) := by
      simp [migrateManagementState, hne, hm]
    simp [normalizeStorage, hlen, hmig]

/-- Witness for C8: without a backend, the flag alone yields `Managed` with no
advisory; with the state `Unmanaged` given, `Unmanaged` is kept and one
`DeprecatedFieldConflict` advisory is reported. -/
theorem deprecated_flag_migration_witness :
    (populatedFields ({} : ImageRegistryConfigStorage sampleExternal)).length ≤ 1 ∧
    normalizeStorage ({} : ImageRegistryConfigStorage sampleExternal) (some true) =
      .ok ({ ManagementState := "Managed" }, []) ∧
    (populatedFields
      ({ ManagementState := "Unmanaged" } : ImageRegistryConfigStorage sampleExternal)).length
        ≤ 1 ∧
    normalizeStorage
        ({ ManagementState := "Unmanaged" } : ImageRegistryConfigStorage sampleExternal)
        (some true) =
      .ok ({ ManagementState := "Unmanaged" }, [Advisory.DeprecatedFieldConflict]) :=
  ⟨by decide,
    (deprecated_flag_migration ({} : ImageRegistryConfigStorage sampleExternal)
      (by decide)).1 rfl,
    by decide,
    (deprecated_flag_migration
      ({ ManagementState := "Unmanaged" } : ImageRegistryConfigStorage sampleExternal)
      (by decide)).2.2 (by decide) (by decide)⟩

end ImageregistryV1
